import Mathlib

/-!
# goproxy: private-address admission policy

A shallow embedding of `main.go` (package `main` of nknorg/goproxy) together with
the parts of the Go standard library and of `github.com/elazarl/goproxy` that
`main.go` calls. The library functions are transcribed from their Go sources:

* `net/ip.go`: `IP`, `IPMask`, `IPNet`, `IPv4`, `To4`, `Equal`, `IsLoopback`,
  `IsLinkLocalUnicast`, `IsLinkLocalMulticast`, `Mask`, `CIDRMask`,
  `networkNumberAndMask`, `Contains`, `parseIPv4`, `parseIPv6`, `ParseCIDR`,
  `ParseIP`, `IPMask.Size`;
* `net/parse.go`: `dtoi`, `xtoi`; `net/ipsock.go`: `SplitHostPort`;
* `net/url/url.go`: `Hostname`, `splitHostPort`, `validOptionalPort`;
* goproxy: `NewResponse`, `ContentTypeText`, `ConnectAction`.

Conventions of the embedding:

* a Go `byte` is a `Nat` below 256; a `[]byte` (`net.IP`, `net.IPMask`) is a `List Nat`;
  theorems that depend on the byte range carry the hypothesis `isBytes`;
* a Go `string` is a `String` (character lists inside the parsers); the bytes the
  parsers look for are all ASCII, so splitting by character and by byte agree;
* a Go `error` is `Option GoError` (`none` is `nil`); a function returning several
  values returns a tuple with the same components in the same order;
* `net.LookupIP`, the only call that leaves the process, is a parameter (`Resolver`);
* `log.Println` calls are not modelled: they do not influence any returned value.
-/

namespace Goproxy

/-! ## Package `net`: addresses, masks and networks -/

/-- Go `error` values are represented by their message. -/
abbrev GoError := String

/-- Go `net.IP`, a byte slice. -/
abbrev IP := List Nat

/-- Go `net.IPMask`, a byte slice. -/
abbrev IPMask := List Nat

/-- Go `net.IPNet`: a network number and its mask. -/
structure IPNet where
  IP : List Nat
  Mask : List Nat
deriving DecidableEq, Repr

/-- Every element is a byte value. -/
def isBytes (bs : List Nat) : Prop := ∀ b ∈ bs, b < 256

instance (bs : List Nat) : Decidable (isBytes bs) := by
  unfold isBytes; infer_instance

abbrev IPv4len : Nat := 4
abbrev IPv6len : Nat := 16

/-- Go `v4InV6Prefix`. -/
abbrev v4InV6Prefix : List Nat := [0, 0, 0, 0, 0, 0, 0, 0, 0, 0, 0xff, 0xff]

/-- Go `net.IPv4`: the 16-byte form of the IPv4 address a.b.c.d. -/
def IPv4 (a b c d : Nat) : IP := v4InV6Prefix ++ [a, b, c, d]

/-- Go `net.IPv6loopback`. -/
abbrev IPv6loopback : IP := [0, 0, 0, 0, 0, 0, 0, 0, 0, 0, 0, 0, 0, 0, 0, 1]

/-- Go `isZeros`. -/
def isZeros (p : List Nat) : Bool := p.all fun b => b == 0

/-- Go `allFF`. -/
def allFF (b : List Nat) : Bool := b.all fun c => c == 0xff

/-- Go `IP.To4`: the 4-byte form of an IPv4 address, `none` (Go `nil`) otherwise. -/
def To4 (ip : IP) : Option IP :=
  if ip.length = IPv4len then some ip
  else if ip.length = IPv6len ∧ isZeros (ip.take 10) = true ∧
      ip.getD 10 0 = 0xff ∧ ip.getD 11 0 = 0xff then
    some ((ip.take 16).drop 12)
  else none

/-- Go `IP.Equal`. -/
def Equal (ip x : IP) : Bool :=
  if ip.length = x.length then ip == x
  else if ip.length = IPv4len ∧ x.length = IPv6len then
    x.take 12 == v4InV6Prefix && ip == x.drop 12
  else if ip.length = IPv6len ∧ x.length = IPv4len then
    ip.take 12 == v4InV6Prefix && ip.drop 12 == x
  else false

/-- Go `IP.IsLoopback`. -/
def IsLoopback (ip : IP) : Bool :=
  match To4 ip with
  | some ip4 => ip4.getD 0 0 == 127
  | none => Equal ip IPv6loopback

/-- Go `IP.IsLinkLocalMulticast`. -/
def IsLinkLocalMulticast (ip : IP) : Bool :=
  match To4 ip with
  | some ip4 => ip4.getD 0 0 == 224 && ip4.getD 1 0 == 0 && ip4.getD 2 0 == 0
  | none => ip.length == IPv6len && ip.getD 0 0 == 0xff && ip.getD 1 0 &&& 0x0f == 0x02

/-- Go `IP.IsLinkLocalUnicast`. -/
def IsLinkLocalUnicast (ip : IP) : Bool :=
  match To4 ip with
  | some ip4 => ip4.getD 0 0 == 169 && ip4.getD 1 0 == 254
  | none => ip.length == IPv6len && ip.getD 0 0 == 0xfe && ip.getD 1 0 &&& 0xc0 == 0x80

/-- Go `networkNumberAndMask`; the Go `nil` results are the empty lists (only their
length is looked at afterwards). -/
def networkNumberAndMask (n : IPNet) : IP × IPMask :=
  let ip? : Option IP :=
    match To4 n.IP with
    | some ip => some ip
    | none => if n.IP.length ≠ IPv6len then none else some n.IP
  match ip? with
  | none => ([], [])
  | some ip =>
    let m := n.Mask
    if m.length = IPv4len then
      if ip.length ≠ IPv4len then ([], []) else (ip, m)
    else if m.length = IPv6len then
      if ip.length = IPv4len then (ip, m.drop 12) else (ip, m)
    else ([], [])

/-- Go `(*IPNet).Contains`. -/
def Contains (n : IPNet) (ip : IP) : Bool :=
  let (nn, m) := networkNumberAndMask n
  let ip := match To4 ip with
    | some x => x
    | none => ip
  let l := ip.length
  if l ≠ nn.length then false
  else (List.range l).all fun i =>
    nn.getD i 0 &&& m.getD i 0 == ip.getD i 0 &&& m.getD i 0

/-- Go `IP.Mask`; `none` is Go `nil`. -/
def Mask (ip : IP) (mask : IPMask) : Option IP :=
  let mask := if mask.length = IPv6len ∧ ip.length = IPv4len ∧ allFF (mask.take 12) = true
    then mask.drop 12 else mask
  let ip := if mask.length = IPv4len ∧ ip.length = IPv6len ∧ ip.take 12 = v4InV6Prefix
    then ip.drop 12 else ip
  let n := ip.length
  if n ≠ mask.length then none
  else some ((List.range n).map fun i => ip.getD i 0 &&& mask.getD i 0)

/-- Go `CIDRMask`, for arguments that are not negative; `none` is Go `nil`. -/
def CIDRMask (ones bits : Nat) : Option IPMask :=
  if bits ≠ 8 * IPv4len ∧ bits ≠ 8 * IPv6len then none
  else if ones > bits then none
  else
    let l := bits / 8
    let step (st : List Nat × Nat) (_i : Nat) : List Nat × Nat :=
      if st.2 ≥ 8 then (st.1 ++ [0xff], st.2 - 8)
      else (st.1 ++ [255 - (0xff >>> st.2)], 0)
    some ((List.range l).foldl step ([], ones)).1

/-! ## Package `net`: parsing of CIDR literals -/

/-- Go `big`, the bound of the number parsers. -/
abbrev big : Nat := 0xFFFFFF

/-- Loop of Go `dtoi`: `n` is the number read so far and `i` the number of characters
consumed. -/
def dtoiLoop : List Char → Nat → Nat → Nat × Nat × Bool
  | [], n, i => if i = 0 then (0, 0, false) else (n, i, true)
  | c :: s, n, i =>
    if '0' ≤ c ∧ c ≤ '9' then
      let n := n * 10 + (c.toNat - '0'.toNat)
      if n ≥ big then (big, i, false) else dtoiLoop s n (i + 1)
    else if i = 0 then (0, 0, false) else (n, i, true)

/-- Go `dtoi`: decimal to integer; returns the number, the characters consumed and
a success flag. -/
def dtoi (s : List Char) : Nat × Nat × Bool := dtoiLoop s 0 0

/-- Loop of Go `xtoi`. -/
def xtoiLoop : List Char → Nat → Nat → Nat × Nat × Bool
  | [], n, i => if i = 0 then (0, i, false) else (n, i, true)
  | c :: s, n, i =>
    let digit? : Option Nat :=
      if '0' ≤ c ∧ c ≤ '9' then some (c.toNat - '0'.toNat)
      else if 'a' ≤ c ∧ c ≤ 'f' then some (c.toNat - 'a'.toNat + 10)
      else if 'A' ≤ c ∧ c ≤ 'F' then some (c.toNat - 'A'.toNat + 10)
      else none
    match digit? with
    | none => if i = 0 then (0, i, false) else (n, i, true)
    | some d =>
      let n := n * 16 + d
      if n ≥ big then (0, i, false) else xtoiLoop s n (i + 1)

/-- Go `xtoi`: hexadecimal to integer. -/
def xtoi (s : List Char) : Nat × Nat × Bool := xtoiLoop s 0 0

/-- One iteration of the loop of Go `parseIPv4`, on the rest of the string and the
octets read so far; `none` is the early `return nil`. -/
def parseIPv4Step (st : List Char × List Nat) (i : Nat) : Option (List Char × List Nat) :=
  let s := st.1
  let p := st.2
  if s.length = 0 then none
  else if i > 0 ∧ s.head? ≠ some '.' then none
  else
    let s := if i > 0 then s.drop 1 else s
    let (n, c, ok) := dtoi s
    if !ok || n > 0xFF then none
    else if c > 1 ∧ s.head? = some '0' then none
    else some (s.drop c, p.set i (n % 256))

/-- Go `parseIPv4`: parse d.d.d.d into the 16-byte form. -/
def parseIPv4 (s : List Char) : Option IP :=
  match (List.range IPv4len).foldlM parseIPv4Step (s, [0, 0, 0, 0]) with
  | none => none
  | some (s, p) =>
    if s.length ≠ 0 then none
    else some (IPv4 (p.getD 0 0) (p.getD 1 0) (p.getD 2 0) (p.getD 3 0))

/-- Main loop of Go `parseIPv6` (`for i < IPv6len`), with the state `s`, `ip`, `i`,
`ellipsis`. The result is the state at the exit of the loop, `none` for the early
`return nil`. Every iteration advances `i` by at least two, so `IPv6len` rounds of
fuel are never used up. -/
def parseIPv6Loop : Nat → List Char → List Nat → Nat → Int →
    Option (List Char × List Nat × Nat × Int)
  | 0, _, _, _, _ => none
  | fuel + 1, s, ip, i, ellipsis =>
    if ¬ i < IPv6len then some (s, ip, i, ellipsis)
    else
      let (n, c, ok) := xtoi s
      if !ok || n > 0xFFFF then none
      else if c < s.length ∧ s.getD c ' ' = '.' then
        if ellipsis < 0 ∧ i ≠ IPv6len - IPv4len then none
        else if i + IPv4len > IPv6len then none
        else
          match parseIPv4 s with
          | none => none
          | some ip4 =>
            let ip := ip.set i (ip4.getD 12 0)
            let ip := ip.set (i + 1) (ip4.getD 13 0)
            let ip := ip.set (i + 2) (ip4.getD 14 0)
            let ip := ip.set (i + 3) (ip4.getD 15 0)
            some ([], ip, i + IPv4len, ellipsis)
      else
        let ip := ip.set i ((n >>> 8) % 256)
        let ip := ip.set (i + 1) (n % 256)
        let i := i + 2
        let s := s.drop c
        if s.length = 0 then some (s, ip, i, ellipsis)
        else if s.head? ≠ some ':' ∨ s.length = 1 then none
        else
          let s := s.drop 1
          if s.head? = some ':' then
            if ellipsis ≥ 0 then none
            else
              let ellipsis : Int := i
              let s := s.drop 1
              if s.length = 0 then some (s, ip, i, ellipsis)
              else parseIPv6Loop fuel s ip i ellipsis
          else parseIPv6Loop fuel s ip i ellipsis

/-- Go `parseIPv6`. -/
def parseIPv6 (s : List Char) : Option IP :=
  let ip : List Nat := List.replicate IPv6len 0
  let lead : Bool := s.length ≥ 2 && s.getD 0 ' ' == ':' && s.getD 1 ' ' == ':'
  let ellipsis : Int := if lead then 0 else -1
  let s := if lead then s.drop 2 else s
  if lead ∧ s.length = 0 then some ip
  else
    match parseIPv6Loop IPv6len s ip 0 ellipsis with
    | none => none
    | some (s, ip, i, ellipsis) =>
      if s.length ≠ 0 then none
      else if i < IPv6len then
        if ellipsis < 0 then none
        else
          let e := ellipsis.toNat
          let n := IPv6len - i
          let ip := ((List.range' e (i - e)).reverse).foldl
            (fun ip j => ip.set (j + n) (ip.getD j 0)) ip
          let ip := ((List.range' e n).reverse).foldl (fun ip j => ip.set j 0) ip
          some ip
      else if ellipsis ≥ 0 then none
      else some ip

/-- Go `bytealg.IndexByteString`: the index of the first occurrence, `none` for -1. -/
def indexByteString : List Char → Char → Option Nat
  | [], _ => none
  | x :: xs, c => if x = c then some 0 else (indexByteString xs c).map (· + 1)

/-- Go `bytealg.LastIndexByteString`: the index of the last occurrence, `none` for -1. -/
def lastIndexByteString : List Char → Char → Option Nat
  | [], _ => none
  | x :: xs, c =>
    match lastIndexByteString xs c with
    | some i => some (i + 1)
    | none => if x = c then some 0 else none

/-- Go `net.ParseCIDR`: the address and the network of a CIDR literal, or a parse
error. A Go `nil` mask or network number is the empty list. -/
def ParseCIDR (s : String) : Except GoError (IP × IPNet) :=
  let err : GoError := "invalid CIDR address: " ++ s
  match indexByteString s.data '/' with
  | none => .error err
  | some i =>
    let addr := s.data.take i
    let mask := s.data.drop (i + 1)
    let ip4? := parseIPv4 addr
    let iplen := if ip4?.isSome then IPv4len else IPv6len
    let ip? := if ip4?.isSome then ip4? else parseIPv6 addr
    let (n, j, ok) := dtoi mask
    match ip? with
    | none => .error err
    | some ip =>
      if !ok || j ≠ mask.length || n > 8 * iplen then .error err
      else
        let m := (CIDRMask n (8 * iplen)).getD []
        .ok (ip, { IP := (Mask ip m).getD [], Mask := m })

/-- The scan of Go `net.ParseIP` over the text `s`: at the first dot the text is
parsed as an IPv4 literal, at the first colon as an IPv6 literal; a text with neither
is no IP literal. -/
def ParseIPScan (s : List Char) : List Char → Option IP
  | [] => none
  | c :: rest =>
    if c = '.' then parseIPv4 s
    else if c = ':' then parseIPv6 s
    else ParseIPScan s rest

/-- Go `net.ParseIP`: the address that the text of an IP literal denotes, `none` (Go
`nil`) for every other text. -/
def ParseIP (s : String) : Option IP := ParseIPScan s.data s.data

/-! ## `main.go`: the private range table -/

/-- The CIDR literals of `init`, in source order. -/
def cidrs : List String :=
  ["127.0.0.0/8", "10.0.0.0/8", "172.16.0.0/12", "192.168.0.0/16", "169.254.0.0/16",
   "::1/128", "fe80::/10", "fc00::/7"]

/-- The body of the loop of `init`: parse one literal and append the block to the
table, or panic (`Except.error`). -/
def initStep (blocks : List IPNet) (cidr : String) : Except GoError (List IPNet) :=
  match ParseCIDR cidr with
  | .error e => .error ("parse error on " ++ cidr ++ ": " ++ e)
  | .ok (_, block) => .ok (blocks ++ [block])

/-- Go `init` of `main.go`, as a transformer of the package variable
`privateIPBlocks`; `Except.error` is the panic. -/
def init (blocks : List IPNet) : Except GoError (List IPNet) :=
  cidrs.foldlM initStep blocks

/-- The package variable `privateIPBlocks` after `init` has run on its zero value. -/
def privateIPBlocks : List IPNet :=
  match init [] with
  | .ok blocks => blocks
  | .error _ => []

/-! ## `main.go`: classification of one address and of one host -/

/-- The loop of `isPrivateIP`: `true` at the first block that contains `ip`, `false`
when the table is exhausted. -/
def isPrivateIPLoop (ip : IP) : List IPNet → Bool
  | [] => false
  | block :: rest => if Contains block ip then true else isPrivateIPLoop ip rest

/-- The function `isPrivateIP` of `main.go`. -/
def isPrivateIP (ip : IP) : Bool :=
  if IsLoopback ip || IsLinkLocalUnicast ip || IsLinkLocalMulticast ip then true
  else isPrivateIPLoop ip privateIPBlocks

/-- Go `net.LookupIP`, as seen by the program: from a host name to `(ipList, err)`. -/
abbrev Resolver := String → List IP × Option GoError

/-- The loop of `isPrivateHost` over the resolved addresses. -/
def isPrivateHostLoop : List IP → Bool × Option GoError
  | [] => (false, none)
  | ip :: rest => if isPrivateIP ip then (true, none) else isPrivateHostLoop rest

/-- The function `isPrivateHost` of `main.go`, with the resolver as a parameter. -/
def isPrivateHost (lookupIP : Resolver) (host : String) : Bool × Option GoError :=
  let (ipList, err) := lookupIP host
  match err with
  | some e => (false, some e)
  | none => isPrivateHostLoop ipList

/-! ## Package `net`: `SplitHostPort` -/

/-- Go `net.SplitHostPort`: `(host, port, err)`. -/
def SplitHostPort (hostport : String) : String × String × Option GoError :=
  let hp := hostport.data
  let addrErr (why : String) : String × String × Option GoError :=
    ("", "", some ("address " ++ hostport ++ ": " ++ why))
  let missingPort := "missing port in address"
  let tooManyColons := "too many colons in address"
  match lastIndexByteString hp ':' with
  | none => addrErr missingPort
  | some i =>
    let finish (host : List Char) (j k : Nat) : String × String × Option GoError :=
      if (indexByteString (hp.drop j) '[').isSome then addrErr "unexpected '[' in address"
      else if (indexByteString (hp.drop k) ']').isSome then
        addrErr "unexpected ']' in address"
      else (String.mk host, String.mk (hp.drop (i + 1)), none)
    if hp.head? = some '[' then
      match indexByteString hp ']' with
      | none => addrErr "missing ']' in address"
      | some e =>
        if e + 1 = hp.length then addrErr missingPort
        else if e + 1 = i then finish ((hp.take e).drop 1) 1 (e + 1)
        else if hp.getD (e + 1) ' ' = ':' then addrErr tooManyColons
        else addrErr missingPort
    else
      let host := hp.take i
      if (indexByteString host ':').isSome then addrErr tooManyColons
      else finish host 0 0

/-! ## Packages `net/url` and `net/http`, and `github.com/elazarl/goproxy` -/

/-- Go `url.URL`: the fields a forward proxy receives (scheme, authority, path). -/
structure URL where
  Scheme : String
  Host : String
  Path : String
deriving DecidableEq, Repr

/-- Go `validOptionalPort` of `net/url`. -/
def validOptionalPort (port : List Char) : Bool :=
  match port with
  | [] => true
  | c :: rest => if c ≠ ':' then false else rest.all fun b => !(b < '0' || b > '9')

/-- Go `splitHostPort` of `net/url` (not the one of `net`): `(host, port)`. -/
def urlSplitHostPort (hostPort : String) : String × String :=
  let host := hostPort.data
  let (host, port) :=
    match lastIndexByteString host ':' with
    | some colon =>
      if validOptionalPort (host.drop colon) then (host.take colon, host.drop (colon + 1))
      else (host, [])
    | none => (host, [])
  let host :=
    if host.head? = some '[' ∧ host.getLast? = some ']' then (host.take (host.length - 1)).drop 1
    else host
  (String.mk host, String.mk port)

/-- Go `(*URL).Hostname`. -/
def URL.Hostname (u : URL) : String := (urlSplitHostPort u.Host).1

/-- Go `http.Request`: the method and the target URL. -/
structure Request where
  Method : String
  URL : URL
deriving DecidableEq, Repr

/-- Go `http.Response` as filled in by `goproxy.NewResponse`: the request it answers,
the status code, the headers and the body. -/
structure Response where
  Request : Request
  StatusCode : Nat
  Header : List (String × String)
  Body : String
deriving DecidableEq, Repr

/-- Go `goproxy.ContentTypeText`. -/
abbrev ContentTypeText : String := "text/plain"

/-- Go `http.StatusForbidden`. -/
abbrev StatusForbidden : Nat := 403

/-- Go `http.StatusBadGateway`. -/
abbrev StatusBadGateway : Nat := 502

/-- Go `goproxy.NewResponse`. -/
def NewResponse (r : Request) (contentType : String) (status : Nat) (body : String) :
    Response :=
  { Request := r, StatusCode := status, Header := [("Content-Type", contentType)],
    Body := body }

/-- The value of the `Content-Type` header of a response. -/
def Response.contentType (resp : Response) : Option String :=
  (resp.Header.find? fun kv => kv.1 == "Content-Type").map (·.2)

/-- Go `goproxy.ConnectAction`: the four predefined actions a CONNECT handler can
return. -/
inductive ConnectAction where
  | OkConnect
  | MitmConnect
  | HTTPMitmConnect
  | RejectConnect
deriving DecidableEq, Repr

/-! ## `main.go`: the two hooks registered by `main` -/

/-- The function passed to `proxy.OnRequest().DoFunc` in `main` (the plain-request
hook): the request to forward, or none, and the response to send, or none. -/
def DoFunc (lookupIP : Resolver) (req : Request) : Option Request × Option Response :=
  let (isPrivate, err) := isPrivateHost lookupIP req.URL.Hostname
  match err with
  | some _ => (none, some (NewResponse req ContentTypeText StatusBadGateway "Host not found"))
  | none =>
    if isPrivate then
      (none, some (NewResponse req ContentTypeText StatusForbidden "Private IP is not allowed"))
    else (some req, none)

/-- The function passed to `proxy.OnRequest().HandleConnectFunc` in `main` (the
CONNECT hook). -/
def HandleConnectFunc (lookupIP : Resolver) (hostport : String) : ConnectAction × String :=
  let (host, _, err) := SplitHostPort hostport
  match err with
  | some _ => (ConnectAction.RejectConnect, hostport)
  | none =>
    let (isPrivate, err) := isPrivateHost lookupIP host
    match err with
    | some _ => (ConnectAction.RejectConnect, hostport)
    | none =>
      if isPrivate then (ConnectAction.RejectConnect, hostport)
      else (ConnectAction.OkConnect, hostport)

/-! ## The address ranges of the specification, stated on numbers

These definitions follow the wording of the specification (CIDR blocks as sets of
numeric addresses); they do not use the functions above. -/

/-- The number denoted by a byte string, most significant byte first. -/
def beValue (bs : List Nat) : Nat := bs.foldl (fun acc b => acc * 256 + b) 0

/-- The IPv4 address (a 32-bit number) that an address value denotes: a 4-byte value,
or a 16-byte value in the IPv4-mapped form ::ffff:a.b.c.d. -/
def ipv4Value (ip : IP) : Option Nat :=
  if ip.length = 4 then some (beValue ip)
  else if ip.length = 16 ∧ ip.take 12 = [0, 0, 0, 0, 0, 0, 0, 0, 0, 0, 0xff, 0xff] then
    some (beValue (ip.drop 12))
  else none

/-- The 128-bit number of a 16-byte address value. -/
def ipv6Value (ip : IP) : Option Nat :=
  if ip.length = 16 then some (beValue ip) else none

/-- Membership of the number `v` in the CIDR block `base/len` of an address family
with `width` bits: the leading `len` bits agree. -/
def inCIDR (width base len v : Nat) : Bool :=
  v / 2 ^ (width - len) == base / 2 ^ (width - len)

/-- The address denotes an IPv4 address inside the IPv4 block `a.b.c.d/len`. -/
def inBlock4 (ip : IP) (a b c d len : Nat) : Bool :=
  match ipv4Value ip with
  | some v => inCIDR 32 (beValue [a, b, c, d]) len v
  | none => false

/-- The address is a 16-byte value inside the IPv6 block `base/len`. -/
def inBlock6 (ip : IP) (base : List Nat) (len : Nat) : Bool :=
  match ipv6Value ip with
  | some v => inCIDR 128 (beValue base) len v
  | none => false

/-- The address lies in one of the eight listed ranges: 10.0.0.0/8, 172.16.0.0/12,
192.168.0.0/16, 127.0.0.0/8, 169.254.0.0/16, ::1, fe80::/10, fc00::/7. -/
def inListedRanges (ip : IP) : Bool :=
  inBlock4 ip 10 0 0 0 8 || inBlock4 ip 172 16 0 0 12 || inBlock4 ip 192 168 0 0 16 ||
  inBlock4 ip 127 0 0 0 8 || inBlock4 ip 169 254 0 0 16 ||
  inBlock6 ip [0, 0, 0, 0, 0, 0, 0, 0, 0, 0, 0, 0, 0, 0, 0, 1] 128 ||
  inBlock6 ip [0xfe, 0x80, 0, 0, 0, 0, 0, 0, 0, 0, 0, 0, 0, 0, 0, 0] 10 ||
  inBlock6 ip [0xfc, 0, 0, 0, 0, 0, 0, 0, 0, 0, 0, 0, 0, 0, 0, 0] 7

/-- Loopback addresses: 127.0.0.0/8 and ::1. -/
def loopbackAddr (ip : IP) : Bool :=
  inBlock4 ip 127 0 0 0 8 ||
  inBlock6 ip [0, 0, 0, 0, 0, 0, 0, 0, 0, 0, 0, 0, 0, 0, 0, 1] 128

/-- Link-local unicast addresses: 169.254.0.0/16 and fe80::/10. -/
def linkLocalUnicastAddr (ip : IP) : Bool :=
  inBlock4 ip 169 254 0 0 16 ||
  inBlock6 ip [0xfe, 0x80, 0, 0, 0, 0, 0, 0, 0, 0, 0, 0, 0, 0, 0, 0] 10

/-- Link-local multicast addresses: 224.0.0.0/24, and the IPv6 multicast addresses
(first byte 0xff) of link-local scope (low nibble of the second byte equal to 2). -/
def linkLocalMulticastAddr (ip : IP) : Bool :=
  inBlock4 ip 224 0 0 0 24 ||
  match ipv6Value ip with
  | some v => v / 2 ^ 120 == 0xff && v / 2 ^ 112 % 16 == 2
  | none => false

/-- Link-local addresses, unicast or multicast. -/
def linkLocalAddr (ip : IP) : Bool :=
  linkLocalUnicastAddr ip || linkLocalMulticastAddr ip

/-! ## Package `net`: the prefix length of a mask -/

/-- The inner loop of Go `simpleMaskLength` (`for v&0x80 != 0 { n++; v <<= 1 }`) on a
byte `v`: the byte left after the shifts and the number of shifts. A byte has eight
bits, so eight rounds of fuel are never used up. -/
def leadingOnesLoop : Nat → Nat → Nat → Nat × Nat
  | 0, v, n => (v, n)
  | fuel + 1, v, n =>
    if v &&& 0x80 ≠ 0 then leadingOnesLoop fuel ((v <<< 1) % 256) (n + 1) else (v, n)

/-- Go `simpleMaskLength`: the number of leading one bits of a mask made of ones
followed by zeros; `none` is the result -1. -/
def simpleMaskLength : IPMask → Option Nat
  | [] => some 0
  | v :: rest =>
    if v = 0xff then (simpleMaskLength rest).map (· + 8)
    else
      let (v, n) := leadingOnesLoop 8 v 0
      if v ≠ 0 then none
      else if rest.all (fun b => b == 0) then some n
      else none

/-- Go `IPMask.Size`: `(ones, bits)`, or `(0, 0)` for a mask that is not in the
canonical form. -/
def Size (m : IPMask) : Nat × Nat :=
  match simpleMaskLength m with
  | none => (0, 0)
  | some ones => (ones, m.length * 8)

/-! ## `isPrivateIP` with the run-time checks of Go

The functions above read a missing element as 0 and never fail. The functions below
are the same Go functions with every index expression and slice expression checked
against the length of its operand, as the Go run time does: `none` is the run-time
panic. `isPrivateIPRun` also carries the package variable `privateIPBlocks` through the
call. -/

/-- Go index expression `xs[i]`; `none` is the panic "index out of range". -/
def index (xs : List Nat) (i : Nat) : Option Nat := xs.get? i

/-- Go slice expression `xs[lo:hi]`; `none` is the panic "slice bounds out of range". -/
def slice (xs : List Nat) (lo hi : Nat) : Option (List Nat) :=
  if lo ≤ hi ∧ hi ≤ xs.length then some ((xs.take hi).drop lo) else none

/-- Go `IP.To4` with checked indexing; the inner `none` is Go `nil`. -/
def To4Checked (ip : IP) : Option (Option IP) :=
  if ip.length = IPv4len then some (some ip)
  else if ip.length = IPv6len then do
    let z ← slice ip 0 10
    if isZeros z then do
      let b10 ← index ip 10
      if b10 = 0xff then do
        let b11 ← index ip 11
        if b11 = 0xff then do
          let x ← slice ip 12 16
          pure (some x)
        else pure none
      else pure none
    else pure none
  else some none

/-- Go `IP.Equal` with checked slicing. -/
def EqualChecked (ip x : IP) : Option Bool :=
  if ip.length = x.length then some (ip == x)
  else if ip.length = IPv4len ∧ x.length = IPv6len then do
    let p ← slice x 0 12
    if p == v4InV6Prefix then do
      let t ← slice x 12 x.length
      pure (ip == t)
    else pure false
  else if ip.length = IPv6len ∧ x.length = IPv4len then do
    let p ← slice ip 0 12
    if p == v4InV6Prefix then do
      let t ← slice ip 12 ip.length
      pure (t == x)
    else pure false
  else some false

/-- Go `IP.IsLoopback` with checked indexing. -/
def IsLoopbackChecked (ip : IP) : Option Bool := do
  match ← To4Checked ip with
  | some ip4 => do
    let b0 ← index ip4 0
    pure (b0 == 127)
  | none => EqualChecked ip IPv6loopback

/-- Go `IP.IsLinkLocalMulticast` with checked indexing. -/
def IsLinkLocalMulticastChecked (ip : IP) : Option Bool := do
  match ← To4Checked ip with
  | some ip4 => do
    let b0 ← index ip4 0
    if b0 == 224 then do
      let b1 ← index ip4 1
      if b1 == 0 then do
        let b2 ← index ip4 2
        pure (b2 == 0)
      else pure false
    else pure false
  | none =>
    if ip.length == IPv6len then do
      let b0 ← index ip 0
      if b0 == 0xff then do
        let b1 ← index ip 1
        pure (b1 &&& 0x0f == 0x02)
      else pure false
    else pure false

/-- Go `IP.IsLinkLocalUnicast` with checked indexing. -/
def IsLinkLocalUnicastChecked (ip : IP) : Option Bool := do
  match ← To4Checked ip with
  | some ip4 => do
    let b0 ← index ip4 0
    if b0 == 169 then do
      let b1 ← index ip4 1
      pure (b1 == 254)
    else pure false
  | none =>
    if ip.length == IPv6len then do
      let b0 ← index ip 0
      if b0 == 0xfe then do
        let b1 ← index ip 1
        pure (b1 &&& 0xc0 == 0x80)
      else pure false
    else pure false

/-- Go `networkNumberAndMask` with checked slicing. -/
def networkNumberAndMaskChecked (n : IPNet) : Option (IP × IPMask) := do
  let ip? : Option IP ←
    match ← To4Checked n.IP with
    | some ip => pure (some ip)
    | none => pure (if n.IP.length ≠ IPv6len then none else some n.IP)
  match ip? with
  | none => pure ([], [])
  | some ip =>
    let m := n.Mask
    if m.length = IPv4len then
      if ip.length ≠ IPv4len then pure ([], []) else pure (ip, m)
    else if m.length = IPv6len then
      if ip.length = IPv4len then do
        let m ← slice m 12 m.length
        pure (ip, m)
      else pure (ip, m)
    else pure ([], [])

/-- The loop of Go `(*IPNet).Contains` over the indices still to visit, with checked
indexing. -/
def containsLoopChecked (nn m ip : List Nat) : List Nat → Option Bool
  | [] => some true
  | i :: rest => do
    let a ← index nn i
    let b ← index m i
    let c ← index ip i
    let b2 ← index m i
    if a &&& b ≠ c &&& b2 then pure false else containsLoopChecked nn m ip rest

/-- Go `(*IPNet).Contains` with checked indexing. -/
def ContainsChecked (n : IPNet) (ip : IP) : Option Bool := do
  let (nn, m) ← networkNumberAndMaskChecked n
  let ip ← match ← To4Checked ip with
    | some x => pure x
    | none => pure ip
  let l := ip.length
  if l ≠ nn.length then pure false
  else containsLoopChecked nn m ip (List.range l)

/-- The loop of `isPrivateIP` over the table, with the checked `Contains`. -/
def isPrivateIPLoopChecked (ip : IP) : List IPNet → Option Bool
  | [] => some false
  | block :: rest => do
    if ← ContainsChecked block ip then pure true else isPrivateIPLoopChecked ip rest

/-- The function `isPrivateIP` of `main.go` as a run: from the value of the package
variable `privateIPBlocks` and the argument to the result and the value of the package
variable afterwards; `none` is a run-time panic. -/
def isPrivateIPRun (blocks : List IPNet) (ip : IP) : Option (Bool × List IPNet) := do
  let special ←
    if ← IsLoopbackChecked ip then pure true
    else if ← IsLinkLocalUnicastChecked ip then pure true
    else IsLinkLocalMulticastChecked ip
  if special then pure (true, blocks)
  else do
    let found ← isPrivateIPLoopChecked ip blocks
    pure (found, blocks)

/-! ## Unspecified addresses -/

/-- The unspecified addresses: 0.0.0.0, in its 4-byte and its 16-byte form, and ::. -/
def unspecified (ip : IP) : Bool :=
  ip == [0, 0, 0, 0] || ip == IPv4 0 0 0 0 ||
  ip == [0, 0, 0, 0, 0, 0, 0, 0, 0, 0, 0, 0, 0, 0, 0, 0]

/-! ## The table computed by `init` -/

theorem privateIPBlocks_eq : privateIPBlocks =
    [⟨[127, 0, 0, 0], [255, 0, 0, 0]⟩, ⟨[10, 0, 0, 0], [255, 0, 0, 0]⟩,
     ⟨[172, 16, 0, 0], [255, 240, 0, 0]⟩, ⟨[192, 168, 0, 0], [255, 255, 0, 0]⟩,
     ⟨[169, 254, 0, 0], [255, 255, 0, 0]⟩,
     ⟨[0, 0, 0, 0, 0, 0, 0, 0, 0, 0, 0, 0, 0, 0, 0, 1],
      [255, 255, 255, 255, 255, 255, 255, 255, 255, 255, 255, 255, 255, 255, 255, 255]⟩,
     ⟨[0xfe, 0x80, 0, 0, 0, 0, 0, 0, 0, 0, 0, 0, 0, 0, 0, 0],
      [255, 192, 0, 0, 0, 0, 0, 0, 0, 0, 0, 0, 0, 0, 0, 0]⟩,
     ⟨[0xfc, 0, 0, 0, 0, 0, 0, 0, 0, 0, 0, 0, 0, 0, 0, 0],
      [254, 0, 0, 0, 0, 0, 0, 0, 0, 0, 0, 0, 0, 0, 0, 0]⟩] := by
  decide

theorem isPrivateIPLoop_eq_any (ip : IP) (blocks : List IPNet) :
    isPrivateIPLoop ip blocks = blocks.any fun block => Contains block ip := by
  induction blocks with
  | nil => rfl
  | cons block rest ih =>
    simp only [isPrivateIPLoop, List.any_cons, ih]
    cases Contains block ip <;> rfl

theorem isPrivateIP_unfold (ip : IP) :
    isPrivateIP ip = (IsLoopback ip || IsLinkLocalUnicast ip || IsLinkLocalMulticast ip ||
      List.any [⟨[127, 0, 0, 0], [255, 0, 0, 0]⟩, ⟨[10, 0, 0, 0], [255, 0, 0, 0]⟩,
        ⟨[172, 16, 0, 0], [255, 240, 0, 0]⟩, ⟨[192, 168, 0, 0], [255, 255, 0, 0]⟩,
        ⟨[169, 254, 0, 0], [255, 255, 0, 0]⟩,
        ⟨[0, 0, 0, 0, 0, 0, 0, 0, 0, 0, 0, 0, 0, 0, 0, 1],
         [255, 255, 255, 255, 255, 255, 255, 255, 255, 255, 255, 255, 255, 255, 255, 255]⟩,
        ⟨[0xfe, 0x80, 0, 0, 0, 0, 0, 0, 0, 0, 0, 0, 0, 0, 0, 0],
         [255, 192, 0, 0, 0, 0, 0, 0, 0, 0, 0, 0, 0, 0, 0, 0]⟩,
        ⟨[0xfc, 0, 0, 0, 0, 0, 0, 0, 0, 0, 0, 0, 0, 0, 0, 0],
         [254, 0, 0, 0, 0, 0, 0, 0, 0, 0, 0, 0, 0, 0, 0, 0]⟩]
        fun block => Contains block ip) := by
  simp only [isPrivateIP, isPrivateIPLoop_eq_any, privateIPBlocks_eq]
  cases IsLoopback ip <;> cases IsLinkLocalUnicast ip <;> cases IsLinkLocalMulticast ip <;>
    simp

/-! ## Bytes and masks -/

set_option maxRecDepth 100000 in
theorem land_255 {x : Nat} (h : x < 256) : x &&& 255 = x := by
  have : ∀ y < 256, y &&& 255 = y := by decide
  exact this x h

set_option maxRecDepth 100000 in
theorem land_240 {x : Nat} (h : x < 256) : x &&& 240 = x / 16 * 16 := by
  have : ∀ y < 256, y &&& 240 = y / 16 * 16 := by decide
  exact this x h

set_option maxRecDepth 100000 in
theorem land_192 {x : Nat} (h : x < 256) : x &&& 192 = x / 64 * 64 := by
  have : ∀ y < 256, y &&& 192 = y / 64 * 64 := by decide
  exact this x h

set_option maxRecDepth 100000 in
theorem land_254 {x : Nat} (h : x < 256) : x &&& 254 = x / 2 * 2 := by
  have : ∀ y < 256, y &&& 254 = y / 2 * 2 := by decide
  exact this x h

set_option maxRecDepth 100000 in
theorem land_15 {x : Nat} (h : x < 256) : x &&& 15 = x % 16 := by
  have : ∀ y < 256, y &&& 15 = y % 16 := by decide
  exact this x h

theorem range4 : List.range 4 = [0, 1, 2, 3] := by decide

theorem range16 :
    List.range 16 = [0, 1, 2, 3, 4, 5, 6, 7, 8, 9, 10, 11, 12, 13, 14, 15] := by
  decide

theorem length_eq_four {ip : List Nat} (h : ip.length = 4) :
    ∃ a b c d, ip = [a, b, c, d] := by
  match ip, h with
  | [a, b, c, d], _ => exact ⟨a, b, c, d, rfl⟩

theorem length_eq_sixteen {ip : List Nat} (h : ip.length = 16) :
    ∃ a0 a1 a2 a3 a4 a5 a6 a7 a8 a9 a10 a11 a12 a13 a14 a15,
      ip = [a0, a1, a2, a3, a4, a5, a6, a7, a8, a9, a10, a11, a12, a13, a14, a15] := by
  match ip, h with
  | [a0, a1, a2, a3, a4, a5, a6, a7, a8, a9, a10, a11, a12, a13, a14, a15], _ =>
    exact ⟨a0, a1, a2, a3, a4, a5, a6, a7, a8, a9, a10, a11, a12, a13, a14, a15, rfl⟩

/-! ## `To4` and the representation of IPv4 addresses -/

theorem To4_length {ip x : IP} (h : To4 ip = some x) : x.length = 4 := by
  unfold To4 at h
  split at h
  · cases h; assumption
  · split at h
    · rename_i h16
      cases h
      simp [List.length_drop, List.length_take, h16.1]
    · cases h

theorem To4_of_length_four {x : IP} (h : x.length = 4) : To4 x = some x := by
  simp [To4, h]

theorem To4_none_length {ip : IP} (h : To4 ip = none) : ip.length ≠ 4 := by
  intro h4
  rw [To4_of_length_four h4] at h
  cases h

theorem To4_cases (ip : IP) :
    (∃ a b c d, To4 ip = some [a, b, c, d] ∧ (ip = [a, b, c, d] ∨ ip = IPv4 a b c d)) ∨
    (To4 ip = none ∧ ip.length = 16) ∨
    (To4 ip = none ∧ ip.length ≠ 4 ∧ ip.length ≠ 16) := by
  by_cases h4 : ip.length = 4
  · obtain ⟨a, b, c, d, rfl⟩ := length_eq_four h4
    exact Or.inl ⟨a, b, c, d, rfl, Or.inl rfl⟩
  · by_cases h16 : ip.length = 16
    · obtain ⟨a0, a1, a2, a3, a4, a5, a6, a7, a8, a9, a10, a11, a12, a13, a14, a15, rfl⟩ :=
        length_eq_sixteen h16
      by_cases hm : (a0 = 0 ∧ a1 = 0 ∧ a2 = 0 ∧ a3 = 0 ∧ a4 = 0 ∧ a5 = 0 ∧ a6 = 0 ∧ a7 = 0 ∧
          a8 = 0 ∧ a9 = 0) ∧ a10 = 255 ∧ a11 = 255
      · obtain ⟨⟨rfl, rfl, rfl, rfl, rfl, rfl, rfl, rfl, rfl, rfl⟩, rfl, rfl⟩ := hm
        exact Or.inl ⟨a12, a13, a14, a15, rfl, Or.inr rfl⟩
      · refine Or.inr (Or.inl ⟨?_, rfl⟩)
        simp [To4, isZeros]
        simpa using hm
    · refine Or.inr (Or.inr ⟨?_, h4, h16⟩)
      simp [To4, h4, h16]

theorem isPrivateIP_To4 {ip x : IP} (h : To4 ip = some x) : isPrivateIP ip = isPrivateIP x := by
  have hx : To4 x = some x := To4_of_length_four (To4_length h)
  simp only [isPrivateIP_unfold, IsLoopback, IsLinkLocalUnicast, IsLinkLocalMulticast,
    Contains, h, hx]

theorem ipv4Value_eq (ip : IP) : ipv4Value ip = (To4 ip).map beValue := by
  rcases To4_cases ip with ⟨a, b, c, d, h, rfl | rfl⟩ | ⟨h, hl⟩ | ⟨h, h4, h16⟩
  · rw [h]; rfl
  · rw [h]; rfl
  · rw [h]
    obtain ⟨a0, a1, a2, a3, a4, a5, a6, a7, a8, a9, a10, a11, a12, a13, a14, a15, rfl⟩ :=
      length_eq_sixteen hl
    simp [To4, isZeros] at h
    simp [ipv4Value]
    intro h0 h1 h2 h3 h4 h5 h6 h7 h8 h9 h10 h11
    exact h h0 h1 h2 h3 h4 h5 h6 h7 h8 h9 h10 h11
  · rw [h]
    simp [ipv4Value, h4, h16]

/-! ## What `isPrivateIP` computes, byte by byte -/

theorem networkNumberAndMask_table :
    privateIPBlocks.map networkNumberAndMask =
      privateIPBlocks.map fun block => (block.IP, block.Mask) := by
  decide

theorem isPrivateIP_v4 (a b c d : Nat) (ha : a < 256) (hb : b < 256) :
    isPrivateIP [a, b, c, d] = true ↔ (a = 127 ∨ a = 10 ∨ (a = 172 ∧ b / 16 = 1) ∨
      (a = 192 ∧ b = 168) ∨ (a = 169 ∧ b = 254) ∨ (a = 224 ∧ b = 0 ∧ c = 0)) := by
  have n := networkNumberAndMask_table
  simp only [privateIPBlocks_eq, List.map_cons, List.map_nil, List.cons.injEq, and_true] at n
  obtain ⟨n1, n2, n3, n4, n5, n6, n7, n8⟩ := n
  have t : To4 [a, b, c, d] = some [a, b, c, d] := rfl
  have c1 : (127 &&& 255 : Nat) = 127 := by decide
  have c2 : (10 &&& 255 : Nat) = 10 := by decide
  have c3 : (172 &&& 255 : Nat) = 172 := by decide
  have c4 : (16 &&& 240 : Nat) = 16 := by decide
  have c5 : (192 &&& 255 : Nat) = 192 := by decide
  have c6 : (168 &&& 255 : Nat) = 168 := by decide
  have c7 : (169 &&& 255 : Nat) = 169 := by decide
  have c8 : (254 &&& 255 : Nat) = 254 := by decide
  have e1 : (16 = b / 16 * 16) ↔ b / 16 = 1 := by omega
  rw [isPrivateIP_unfold]
  simp only [IsLoopback, IsLinkLocalUnicast, IsLinkLocalMulticast, Contains, t,
    List.any_cons, List.any_nil, n1, n2, n3, n4, n5, n6, n7, n8]
  simp only [List.length_cons, List.length_nil, Nat.reduceAdd, ne_eq, Nat.reduceEqDiff,
    not_true_eq_false, not_false_eq_true, if_true, if_false, range4, List.all_cons,
    List.all_nil, List.getD_cons_zero, List.getD_cons_succ, Nat.and_zero, land_255 ha,
    land_255 hb, land_240 hb, c1, c2, c3, c4, c5, c6, c7, c8, Bool.or_false, Bool.and_true,
    beq_self_eq_true, Bool.or_eq_true, Bool.and_eq_true, beq_iff_eq, e1, @eq_comm Nat 127,
    @eq_comm Nat 10, @eq_comm Nat 172, @eq_comm Nat 192, @eq_comm Nat 168, @eq_comm Nat 169,
    @eq_comm Nat 254]
  clear n1 n2 n3 n4 n5 n6 n7 n8 t c1 c2 c3 c4 c5 c6 c7 c8 e1 ha hb
  tauto

theorem isPrivateIP_v6 (a0 a1 a2 a3 a4 a5 a6 a7 a8 a9 a10 a11 a12 a13 a14 a15 : Nat)
    (hb : isBytes [a0, a1, a2, a3, a4, a5, a6, a7, a8, a9, a10, a11, a12, a13, a14, a15])
    (h4 : To4 [a0, a1, a2, a3, a4, a5, a6, a7, a8, a9, a10, a11, a12, a13, a14, a15] = none) :
    isPrivateIP [a0, a1, a2, a3, a4, a5, a6, a7, a8, a9, a10, a11, a12, a13, a14, a15] = true ↔
      ((a0 = 0 ∧ a1 = 0 ∧ a2 = 0 ∧ a3 = 0 ∧ a4 = 0 ∧ a5 = 0 ∧ a6 = 0 ∧ a7 = 0 ∧ a8 = 0 ∧
          a9 = 0 ∧ a10 = 0 ∧ a11 = 0 ∧ a12 = 0 ∧ a13 = 0 ∧ a14 = 0 ∧ a15 = 1) ∨
        (a0 = 254 ∧ a1 / 64 = 2) ∨ (a0 = 255 ∧ a1 % 16 = 2) ∨ a0 / 2 = 126) := by
  have n := networkNumberAndMask_table
  simp only [privateIPBlocks_eq, List.map_cons, List.map_nil, List.cons.injEq, and_true] at n
  obtain ⟨n1, n2, n3, n4, n5, n6, n7, n8⟩ := n
  simp only [isBytes, List.mem_cons, List.mem_singleton, forall_eq_or_imp, forall_eq,
    List.not_mem_nil, false_imp_iff, implies_true, and_true] at hb
  obtain ⟨h0, h1, h2, h3, h5, h6, h7, h8, h9, h10, h11, h12, h13, h14, h15, h16⟩ := hb
  have c0 : (0 &&& 255 : Nat) = 0 := by decide
  have c1 : (254 &&& 255 : Nat) = 254 := by decide
  have c2 : (128 &&& 192 : Nat) = 128 := by decide
  have c3 : (252 &&& 254 : Nat) = 252 := by decide
  have c4 : (1 &&& 255 : Nat) = 1 := by decide
  have e1 : (128 = a1 / 64 * 64) ↔ a1 / 64 = 2 := by omega
  have e2 : (a1 / 64 * 64 = 128) ↔ a1 / 64 = 2 := by omega
  have e3 : (252 = a0 / 2 * 2) ↔ a0 / 2 = 126 := by omega
  rw [isPrivateIP_unfold]
  simp only [IsLoopback, IsLinkLocalUnicast, IsLinkLocalMulticast, Contains, h4,
    List.any_cons, List.any_nil, n1, n2, n3, n4, n5, n6, n7, n8]
  simp only [List.length_cons, List.length_nil, Nat.reduceAdd, ne_eq, Nat.reduceEqDiff,
    not_true_eq_false, not_false_eq_true, if_true, if_false, range16, List.all_cons,
    List.all_nil, List.getD_cons_zero, List.getD_cons_succ, Nat.and_zero,
    land_255 h0, land_255 h1, land_255 h2, land_255 h3, land_255 h5, land_255 h6, land_255 h7,
    land_255 h8, land_255 h9, land_255 h10, land_255 h11, land_255 h12, land_255 h13,
    land_255 h14, land_255 h15, land_255 h16, land_192 h1, land_254 h0, land_15 h1, Equal,
    Bool.or_false, Bool.false_or, Bool.and_true, beq_self_eq_true, Bool.true_and,
    c0, c1, c2, c3, c4, Bool.or_eq_true, Bool.and_eq_true, beq_iff_eq, e1, e2, e3,
    @eq_comm Nat 0, @eq_comm Nat 1, @eq_comm Nat 254, List.cons.injEq, and_true]
  clear n1 n2 n3 n4 n5 n6 n7 n8 c0 c1 c2 c3 c4 e1 e2 e3 h4 h0 h1 h2 h3 h5 h6 h7 h8 h9 h10 h11
    h12 h13 h14 h15 h16
  generalize (a0 = 0 ∧ a1 = 0 ∧ a2 = 0 ∧ a3 = 0 ∧ a4 = 0 ∧ a5 = 0 ∧ a6 = 0 ∧ a7 = 0 ∧ a8 = 0 ∧
          a9 = 0 ∧ a10 = 0 ∧ a11 = 0 ∧ a12 = 0 ∧ a13 = 0 ∧ a14 = 0 ∧ a15 = 1) = P
  tauto

/-! ## The listed ranges, byte by byte -/

theorem inBlock4_To4 {ip x : IP} (h : To4 ip = some x) (a b c d len : Nat) :
    inBlock4 ip a b c d len = inBlock4 x a b c d len := by
  have hx : To4 x = some x := To4_of_length_four (To4_length h)
  simp only [inBlock4, ipv4Value_eq, h, hx]

theorem inBlock4_none {ip : IP} (h : To4 ip = none) (a b c d len : Nat) :
    inBlock4 ip a b c d len = false := by
  simp only [inBlock4, ipv4Value_eq, h, Option.map_none']

theorem inBlock4_bytes (a b c d x y z w len : Nat) :
    inBlock4 [a, b, c, d] x y z w len = true ↔
      (a * 2 ^ 24 + b * 2 ^ 16 + c * 2 ^ 8 + d) / 2 ^ (32 - len) =
        (x * 2 ^ 24 + y * 2 ^ 16 + z * 2 ^ 8 + w) / 2 ^ (32 - len) := by
  have e : ∀ p q r s : Nat, beValue [p, q, r, s] = p * 2 ^ 24 + q * 2 ^ 16 + r * 2 ^ 8 + s := by
    intro p q r s
    simp only [beValue, List.foldl_cons, List.foldl_nil]
    ring
  have t : ipv4Value [a, b, c, d] = some (beValue [a, b, c, d]) := rfl
  simp only [inBlock4, t, inCIDR, e, beq_iff_eq]

theorem listed_v4 (a b c d : Nat) (ha : a < 256) (hb : b < 256) (hc : c < 256)
    (hd : d < 256) :
    inListedRanges [a, b, c, d] = true ↔ (a = 127 ∨ a = 10 ∨ (a = 172 ∧ b / 16 = 1) ∨
      (a = 192 ∧ b = 168) ∨ (a = 169 ∧ b = 254)) := by
  have v6 : ipv6Value [a, b, c, d] = none := rfl
  have r1 : inBlock4 [a, b, c, d] 10 0 0 0 8 = true ↔ a = 10 := by
    rw [inBlock4_bytes]; omega
  have r2 : inBlock4 [a, b, c, d] 172 16 0 0 12 = true ↔ (a = 172 ∧ b / 16 = 1) := by
    rw [inBlock4_bytes]; omega
  have r3 : inBlock4 [a, b, c, d] 192 168 0 0 16 = true ↔ (a = 192 ∧ b = 168) := by
    rw [inBlock4_bytes]; omega
  have r4 : inBlock4 [a, b, c, d] 127 0 0 0 8 = true ↔ a = 127 := by
    rw [inBlock4_bytes]; omega
  have r5 : inBlock4 [a, b, c, d] 169 254 0 0 16 = true ↔ (a = 169 ∧ b = 254) := by
    rw [inBlock4_bytes]; omega
  simp only [inListedRanges, inBlock6, v6, Bool.or_false, Bool.or_eq_true, r1, r2, r3, r4, r5]
  clear r1 r2 r3 r4 r5 v6 ha hb hc hd
  tauto

theorem multicast_v4 (a b c d : Nat) (ha : a < 256) (hb : b < 256) (hc : c < 256)
    (hd : d < 256) :
    linkLocalMulticastAddr [a, b, c, d] = true ↔ (a = 224 ∧ b = 0 ∧ c = 0) := by
  have v6 : ipv6Value [a, b, c, d] = none := rfl
  simp only [linkLocalMulticastAddr, v6, Bool.or_false, inBlock4_bytes]
  omega

theorem beValue_sixteen (a0 a1 a2 a3 a4 a5 a6 a7 a8 a9 a10 a11 a12 a13 a14 a15 : Nat) :
    beValue [a0, a1, a2, a3, a4, a5, a6, a7, a8, a9, a10, a11, a12, a13, a14, a15] =
      a0 * 2 ^ 120 + a1 * 2 ^ 112 + a2 * 2 ^ 104 + a3 * 2 ^ 96 + a4 * 2 ^ 88 + a5 * 2 ^ 80 +
      a6 * 2 ^ 72 + a7 * 2 ^ 64 + a8 * 2 ^ 56 + a9 * 2 ^ 48 + a10 * 2 ^ 40 + a11 * 2 ^ 32 +
      a12 * 2 ^ 24 + a13 * 2 ^ 16 + a14 * 2 ^ 8 + a15 := by
  simp only [beValue, List.foldl_cons, List.foldl_nil]
  ring

theorem isBytes_sixteen {a0 a1 a2 a3 a4 a5 a6 a7 a8 a9 a10 a11 a12 a13 a14 a15 : Nat}
    (hb : isBytes [a0, a1, a2, a3, a4, a5, a6, a7, a8, a9, a10, a11, a12, a13, a14, a15]) :
    a0 < 256 ∧ a1 < 256 ∧ a2 < 256 ∧ a3 < 256 ∧ a4 < 256 ∧ a5 < 256 ∧ a6 < 256 ∧ a7 < 256 ∧
    a8 < 256 ∧ a9 < 256 ∧ a10 < 256 ∧ a11 < 256 ∧ a12 < 256 ∧ a13 < 256 ∧ a14 < 256 ∧
    a15 < 256 := by
  simpa only [isBytes, List.mem_cons, List.mem_singleton, forall_eq_or_imp, forall_eq,
    List.not_mem_nil, false_imp_iff, implies_true, and_true] using hb

theorem listed_v6 (a0 a1 a2 a3 a4 a5 a6 a7 a8 a9 a10 a11 a12 a13 a14 a15 : Nat)
    (hb : isBytes [a0, a1, a2, a3, a4, a5, a6, a7, a8, a9, a10, a11, a12, a13, a14, a15]) :
    (inBlock6 [a0, a1, a2, a3, a4, a5, a6, a7, a8, a9, a10, a11, a12, a13, a14, a15]
        [0, 0, 0, 0, 0, 0, 0, 0, 0, 0, 0, 0, 0, 0, 0, 1] 128 = true ↔
      (a0 = 0 ∧ a1 = 0 ∧ a2 = 0 ∧ a3 = 0 ∧ a4 = 0 ∧ a5 = 0 ∧ a6 = 0 ∧ a7 = 0 ∧ a8 = 0 ∧
          a9 = 0 ∧ a10 = 0 ∧ a11 = 0 ∧ a12 = 0 ∧ a13 = 0 ∧ a14 = 0 ∧ a15 = 1)) ∧
    (inBlock6 [a0, a1, a2, a3, a4, a5, a6, a7, a8, a9, a10, a11, a12, a13, a14, a15]
        [0xfe, 0x80, 0, 0, 0, 0, 0, 0, 0, 0, 0, 0, 0, 0, 0, 0] 10 = true ↔
      (a0 = 254 ∧ a1 / 64 = 2)) ∧
    (inBlock6 [a0, a1, a2, a3, a4, a5, a6, a7, a8, a9, a10, a11, a12, a13, a14, a15]
        [0xfc, 0, 0, 0, 0, 0, 0, 0, 0, 0, 0, 0, 0, 0, 0, 0] 7 = true ↔ a0 / 2 = 126) ∧
    ((beValue [a0, a1, a2, a3, a4, a5, a6, a7, a8, a9, a10, a11, a12, a13, a14, a15] / 2 ^ 120 =
        0xff ∧
      beValue [a0, a1, a2, a3, a4, a5, a6, a7, a8, a9, a10, a11, a12, a13, a14, a15] / 2 ^ 112 %
        16 = 2) ↔ (a0 = 255 ∧ a1 % 16 = 2)) := by
  obtain ⟨h0, h1, h2, h3, h4, h5, h6, h7, h8, h9, h10, h11, h12, h13, h14, h15⟩ :=
    isBytes_sixteen hb
  have v6 : ipv6Value [a0, a1, a2, a3, a4, a5, a6, a7, a8, a9, a10, a11, a12, a13, a14, a15] =
      some (beValue [a0, a1, a2, a3, a4, a5, a6, a7, a8, a9, a10, a11, a12, a13, a14, a15]) :=
    rfl
  simp only [inBlock6, v6, inCIDR, beq_iff_eq, beValue_sixteen]
  refine ⟨⟨fun h => ?_, fun h => ?_⟩, ?_, ?_, ?_⟩
  · refine ⟨?_, ?_, ?_, ?_, ?_, ?_, ?_, ?_, ?_, ?_, ?_, ?_, ?_, ?_, ?_, ?_⟩ <;> omega
  · omega
  · omega
  · omega
  · omega

/-! ## The classification in the terms of the specification -/

theorem isPrivateIP_other {ip : IP} (h4 : To4 ip = none) (h16 : ip.length ≠ 16) :
    isPrivateIP ip = false := by
  have hl := To4_none_length h4
  have n := networkNumberAndMask_table
  simp only [privateIPBlocks_eq, List.map_cons, List.map_nil, List.cons.injEq, and_true] at n
  obtain ⟨n1, n2, n3, n4, n5, n6, n7, n8⟩ := n
  rw [isPrivateIP_unfold]
  simp only [IsLoopback, IsLinkLocalUnicast, IsLinkLocalMulticast, Contains, h4,
    List.any_cons, List.any_nil, n1, n2, n3, n4, n5, n6, n7, n8]
  simp [Equal, hl, h16]

theorem listed_other {ip : IP} (h4 : To4 ip = none) (h16 : ip.length ≠ 16) :
    inListedRanges ip = false ∧ linkLocalMulticastAddr ip = false := by
  have v6 : ipv6Value ip = none := by simp [ipv6Value, h16]
  simp [inListedRanges, linkLocalMulticastAddr, inBlock4_none h4, inBlock6, v6]

theorem listed_mapped (a b c d : Nat) (ha : a < 256) (hb : b < 256) (hc : c < 256)
    (hd : d < 256) :
    inListedRanges (IPv4 a b c d) = inListedRanges [a, b, c, d] ∧
    linkLocalMulticastAddr (IPv4 a b c d) = linkLocalMulticastAddr [a, b, c, d] := by
  have t : To4 (IPv4 a b c d) = some [a, b, c, d] := rfl
  have v4 : ipv6Value [a, b, c, d] = none := rfl
  have v6 : ipv6Value (IPv4 a b c d) = some (beValue (IPv4 a b c d)) := rfl
  have hbytes : isBytes (IPv4 a b c d) := by
    intro x hx
    simp only [IPv4, List.cons_append, List.nil_append, List.mem_cons, List.mem_singleton,
      List.not_mem_nil, or_false] at hx
    omega
  obtain ⟨l1, l2, l3, l4⟩ := listed_v6 0 0 0 0 0 0 0 0 0 0 255 255 a b c d hbytes
  have f1 : inBlock6 (IPv4 a b c d) [0, 0, 0, 0, 0, 0, 0, 0, 0, 0, 0, 0, 0, 0, 0, 1] 128 =
      false := by
    rw [← Bool.not_eq_true]; intro h; have := l1.mp h; omega
  have f2 : inBlock6 (IPv4 a b c d) [0xfe, 0x80, 0, 0, 0, 0, 0, 0, 0, 0, 0, 0, 0, 0, 0, 0] 10 =
      false := by
    rw [← Bool.not_eq_true]; intro h; have := l2.mp h; omega
  have f3 : inBlock6 (IPv4 a b c d) [0xfc, 0, 0, 0, 0, 0, 0, 0, 0, 0, 0, 0, 0, 0, 0, 0] 7 =
      false := by
    rw [← Bool.not_eq_true]; intro h; have := l3.mp h; omega
  have f4 : (beValue (IPv4 a b c d) / 2 ^ 120 == 0xff &&
      beValue (IPv4 a b c d) / 2 ^ 112 % 16 == 2) = false := by
    rw [← Bool.not_eq_true]; intro h
    simp only [Bool.and_eq_true, beq_iff_eq] at h
    have := l4.mp h; omega
  constructor
  · have g : ∀ base len, inBlock6 [a, b, c, d] base len = false := fun _ _ => rfl
    simp only [inListedRanges, inBlock4_To4 t, f1, f2, f3, g]
  · simp only [linkLocalMulticastAddr, inBlock4_To4 t, v4, v6, f4]

/-- The classification computed by `isPrivateIP`, in the terms of the specification:
an address is private exactly when it lies in one of the eight listed ranges or is a
link-local multicast address. -/
theorem isPrivateIP_iff (ip : IP) (hb : isBytes ip) :
    isPrivateIP ip = true ↔ (inListedRanges ip = true ∨ linkLocalMulticastAddr ip = true) := by
  rcases To4_cases ip with ⟨a, b, c, d, h, rfl | rfl⟩ | ⟨h, hl⟩ | ⟨h, -, h16⟩
  · have hb4 : a < 256 ∧ b < 256 ∧ c < 256 ∧ d < 256 := by
      simpa only [isBytes, List.mem_cons, List.mem_singleton, forall_eq_or_imp, forall_eq,
        List.not_mem_nil, false_imp_iff, implies_true, and_true] using hb
    obtain ⟨ha, hb', hc, hd⟩ := hb4
    rw [isPrivateIP_v4 a b c d ha hb', listed_v4 a b c d ha hb' hc hd,
      multicast_v4 a b c d ha hb' hc hd]
    clear hb h ha hb' hc hd
    tauto
  · have hb4 : a < 256 ∧ b < 256 ∧ c < 256 ∧ d < 256 := by
      have := isBytes_sixteen hb
      tauto
    obtain ⟨ha, hb', hc, hd⟩ := hb4
    obtain ⟨m1, m2⟩ := listed_mapped a b c d ha hb' hc hd
    rw [isPrivateIP_To4 h, m1, m2, isPrivateIP_v4 a b c d ha hb', listed_v4 a b c d ha hb' hc hd,
      multicast_v4 a b c d ha hb' hc hd]
    clear hb h ha hb' hc hd m1 m2
    tauto
  · obtain ⟨a0, a1, a2, a3, a4, a5, a6, a7, a8, a9, a10, a11, a12, a13, a14, a15, rfl⟩ :=
      length_eq_sixteen hl
    obtain ⟨l1, l2, l3, l4⟩ := listed_v6 a0 a1 a2 a3 a4 a5 a6 a7 a8 a9 a10 a11 a12 a13 a14 a15 hb
    have v6 : ipv6Value [a0, a1, a2, a3, a4, a5, a6, a7, a8, a9, a10, a11, a12, a13, a14, a15] =
        some (beValue [a0, a1, a2, a3, a4, a5, a6, a7, a8, a9, a10, a11, a12, a13, a14, a15]) :=
      rfl
    rw [isPrivateIP_v6 _ _ _ _ _ _ _ _ _ _ _ _ _ _ _ _ hb h]
    simp only [inListedRanges, linkLocalMulticastAddr, inBlock4_none h, Bool.false_or,
      Bool.or_eq_true, l1, l2, l3, v6, Bool.and_eq_true, beq_iff_eq, l4]
    clear l1 l2 l3 l4 v6 hb h hl
    generalize (a0 = 0 ∧ a1 = 0 ∧ a2 = 0 ∧ a3 = 0 ∧ a4 = 0 ∧ a5 = 0 ∧ a6 = 0 ∧ a7 = 0 ∧ a8 = 0 ∧
          a9 = 0 ∧ a10 = 0 ∧ a11 = 0 ∧ a12 = 0 ∧ a13 = 0 ∧ a14 = 0 ∧ a15 = 1) = P
    tauto
  · obtain ⟨o1, o2⟩ := listed_other h h16
    rw [isPrivateIP_other h h16, o1, o2]
    simp

/-! ## The loop over the resolved addresses and the two hooks -/

theorem isPrivateHostLoop_eq (ipList : List IP) :
    isPrivateHostLoop ipList = (ipList.any isPrivateIP, none) := by
  induction ipList with
  | nil => rfl
  | cons ip rest ih =>
    simp only [isPrivateHostLoop, List.any_cons, ih]
    cases isPrivateIP ip <;> rfl

theorem isPrivateHost_ok {lookupIP : Resolver} {host : String}
    (h : (lookupIP host).2 = none) :
    isPrivateHost lookupIP host = ((lookupIP host).1.any isPrivateIP, none) := by
  unfold isPrivateHost
  rcases hr : lookupIP host with ⟨ipList, err⟩
  rw [hr] at h
  cases h
  exact isPrivateHostLoop_eq ipList

theorem isPrivateHost_err {lookupIP : Resolver} {host : String} {e : GoError}
    (h : (lookupIP host).2 = some e) :
    isPrivateHost lookupIP host = (false, some e) := by
  unfold isPrivateHost
  rcases hr : lookupIP host with ⟨ipList, err⟩
  rw [hr] at h
  cases h
  rfl

theorem any_false_iff (ipList : List IP) :
    ipList.any isPrivateIP = false ↔ ∀ ip ∈ ipList, isPrivateIP ip = false := by
  simp [List.any_eq_false]

theorem DoFunc_err {lookupIP : Resolver} {req : Request} {e : GoError}
    (h : (isPrivateHost lookupIP req.URL.Hostname).2 = some e) :
    DoFunc lookupIP req =
      (none, some (NewResponse req ContentTypeText StatusBadGateway "Host not found")) := by
  unfold DoFunc
  rcases hr : isPrivateHost lookupIP req.URL.Hostname with ⟨isPrivate, err⟩
  rw [hr] at h
  cases h
  rfl

theorem DoFunc_ok {lookupIP : Resolver} {req : Request} {isPrivate : Bool}
    (h : isPrivateHost lookupIP req.URL.Hostname = (isPrivate, none)) :
    DoFunc lookupIP req =
      if isPrivate then
        (none, some (NewResponse req ContentTypeText StatusForbidden
          "Private IP is not allowed"))
      else (some req, none) := by
  unfold DoFunc
  rw [h]

theorem HandleConnectFunc_split_err {lookupIP : Resolver} {hostport : String} {e : GoError}
    (h : (SplitHostPort hostport).2.2 = some e) :
    HandleConnectFunc lookupIP hostport = (ConnectAction.RejectConnect, hostport) := by
  unfold HandleConnectFunc
  rcases hr : SplitHostPort hostport with ⟨host, port, err⟩
  rw [hr] at h
  cases h
  rfl

theorem HandleConnectFunc_split_ok {lookupIP : Resolver} {hostport : String}
    (h : (SplitHostPort hostport).2.2 = none) :
    HandleConnectFunc lookupIP hostport =
      (if isPrivateHost lookupIP (SplitHostPort hostport).1 = (false, none) then
        ConnectAction.OkConnect else ConnectAction.RejectConnect, hostport) := by
  unfold HandleConnectFunc
  rcases hr : SplitHostPort hostport with ⟨host, port, err⟩
  rw [hr] at h
  cases h
  rcases hp : isPrivateHost lookupIP host with ⟨isPrivate, err⟩
  cases err with
  | some e => simp [hp]
  | none => cases isPrivate <;> simp [hp]

/-! ## `SplitHostPort` -/

theorem indexByteString_isSome (s : List Char) (c : Char) :
    (indexByteString s c).isSome = true ↔ c ∈ s := by
  induction s with
  | nil => simp [indexByteString]
  | cons x xs ih =>
    by_cases hx : x = c
    · simp [indexByteString, hx]
    · have hx2 : ¬ c = x := fun h => hx h.symm
      simp [indexByteString, hx, hx2, ih]

theorem lastIndexByteString_none (s : List Char) (c : Char) :
    lastIndexByteString s c = none ↔ c ∉ s := by
  induction s with
  | nil => simp [lastIndexByteString]
  | cons x xs ih =>
    by_cases hx : x = c
    · subst hx
      cases h : lastIndexByteString xs x <;> simp [lastIndexByteString, h]
    · have hx2 : ¬ c = x := fun h => hx h.symm
      cases h : lastIndexByteString xs c with
      | none => simp [lastIndexByteString, h, hx, hx2, ih.mp h]
      | some i =>
        have : c ∈ xs := by
          by_contra hc
          rw [ih.mpr hc] at h
          cases h
        simp [lastIndexByteString, h, this]

theorem lastIndexByteString_append (l p : List Char) (c : Char) :
    ∃ k, lastIndexByteString (l ++ c :: p) c = some (l.length + k) := by
  induction l with
  | nil =>
    cases h : lastIndexByteString p c with
    | none => exact ⟨0, by simp [lastIndexByteString, h]⟩
    | some i => exact ⟨i + 1, by simp [lastIndexByteString, h]⟩
  | cons x xs ih =>
    obtain ⟨k, hk⟩ := ih
    refine ⟨k, ?_⟩
    have e : lastIndexByteString (x :: (xs ++ c :: p)) c = some (xs.length + k + 1) := by
      simp only [lastIndexByteString, hk]
    rw [List.cons_append, e, List.length_cons, Nat.add_right_comm]

theorem SplitHostPort_no_colon (hostport : String) (h : ':' ∉ hostport.data) :
    (SplitHostPort hostport).2.2 ≠ none := by
  have hn := (lastIndexByteString_none hostport.data ':').mpr h
  simp [SplitHostPort, hn]

theorem SplitHostPort_literal (l p : List Char) (hl : l.head? ≠ some '[') :
    (SplitHostPort (String.mk (l ++ ':' :: p))).2.2 ≠ none ∨
    (SplitHostPort (String.mk (l ++ ':' :: p))).1 = String.mk l := by
  obtain ⟨k, hk⟩ := lastIndexByteString_append l p ':'
  have hh : (l ++ ':' :: p).head? ≠ some '[' := by
    cases l with
    | nil => simp
    | cons x xs => simpa using hl
  simp only [SplitHostPort, hk, hh, if_false]
  by_cases hc : ':' ∈ List.take (l.length + k) (l ++ ':' :: p)
  · left
    simp [(indexByteString_isSome _ _).mpr hc]
  · have hk0 : k = 0 := by
      by_contra hk0
      apply hc
      obtain ⟨k', rfl⟩ := Nat.exists_eq_succ_of_ne_zero hk0
      simp [List.take_append_eq_append_take, List.take_succ_cons]
    subst hk0
    have ht : List.take (l.length + 0) (l ++ ':' :: p) = l := by simp
    have hcl : ':' ∉ l := by rw [ht] at hc; exact hc
    have hi : (indexByteString l ':').isSome = false := by
      rw [← Bool.not_eq_true, indexByteString_isSome]; exact hcl
    simp only [ht, hi, List.drop_zero]
    by_cases h1 : (indexByteString (l ++ ':' :: p) '[').isSome = true
    · left; simp [h1]
    · by_cases h2 : (indexByteString (l ++ ':' :: p) ']').isSome = true
      · left; simp [h1, h2]
      · right; simp [h1, h2]

/-! ## Bracketed targets and the text of an IP literal -/

theorem indexByteString_append (a b : List Char) (c : Char) :
    ∃ e, indexByteString (a ++ c :: b) c = some e ∧ e ≤ a.length := by
  induction a with
  | nil => exact ⟨0, by simp [indexByteString], Nat.le_refl _⟩
  | cons x xs ih =>
    obtain ⟨e, he, hle⟩ := ih
    by_cases hx : x = c
    · exact ⟨0, by simp [indexByteString, hx], Nat.zero_le _⟩
    · have e' : indexByteString (x :: (xs ++ c :: b)) c = some (e + 1) := by
        simp only [indexByteString, hx, if_false, he, Option.map_some']
      exact ⟨e + 1, by rw [List.cons_append, e'], by simpa using hle⟩

theorem SplitHostPort_bracketed (l p : List Char) :
    (SplitHostPort (String.mk ('[' :: (l ++ ']' :: ':' :: p)))).2.2 ≠ none ∨
    (SplitHostPort (String.mk ('[' :: (l ++ ']' :: ':' :: p)))).1 = String.mk l := by
  have hk : ∃ k, lastIndexByteString ('[' :: (l ++ ']' :: ':' :: p)) ':' =
      some (l.length + 2 + k) := by
    obtain ⟨k, hk⟩ := lastIndexByteString_append ('[' :: (l ++ [']'])) p ':'
    refine ⟨k, ?_⟩
    have e1 : ('[' :: (l ++ [']'])) ++ ':' :: p = '[' :: (l ++ ']' :: ':' :: p) := by simp
    rw [e1] at hk
    rw [hk]
    simp
  obtain ⟨k, hk⟩ := hk
  have he : ∃ e, indexByteString ('[' :: (l ++ ']' :: ':' :: p)) ']' = some e ∧
      e ≤ l.length + 1 := by
    obtain ⟨e, he, hle⟩ := indexByteString_append ('[' :: l) (':' :: p) ']'
    exact ⟨e, by simpa using he, by simpa using hle⟩
  obtain ⟨e, he, hle⟩ := he
  simp only [SplitHostPort, hk, List.head?_cons, if_true, he]
  by_cases h1 : e + 1 = ('[' :: (l ++ ']' :: ':' :: p)).length
  · left; rw [if_pos h1]; simp
  · rw [if_neg h1]
    by_cases h2 : e + 1 = l.length + 2 + k
    · rw [if_pos h2]
      have hee : e = l.length + 1 := by omega
      subst hee
      have ht : List.drop 1 (List.take (l.length + 1) ('[' :: (l ++ ']' :: ':' :: p))) = l := by
        simp [List.take_succ_cons]
      rw [ht]
      by_cases h3 : (indexByteString (List.drop 1 ('[' :: (l ++ ']' :: ':' :: p))) '[').isSome
          = true
      · left; rw [if_pos h3]; simp
      · rw [if_neg h3]
        by_cases h4 : (indexByteString
            (List.drop (l.length + 1 + 1) ('[' :: (l ++ ']' :: ':' :: p))) ']').isSome = true
        · left; rw [if_pos h4]; simp
        · right; rw [if_neg h4]
    · left
      rw [if_neg h2]
      split <;> simp

theorem parseIPv4_bracket (t : List Char) : parseIPv4 ('[' :: t) = none := by
  have c1 : ¬ ('0' ≤ '[' ∧ '[' ≤ '9') := by decide
  simp [parseIPv4, range4, List.foldlM, parseIPv4Step, dtoi, dtoiLoop, c1]

theorem parseIPv6_bracket (t : List Char) : parseIPv6 ('[' :: t) = none := by
  have c1 : ¬ ('0' ≤ '[' ∧ '[' ≤ '9') := by decide
  have c2 : ¬ ('a' ≤ '[' ∧ '[' ≤ 'f') := by decide
  have c3 : ¬ ('A' ≤ '[' ∧ '[' ≤ 'F') := by decide
  have c4 : ('[' == ':') = false := by decide
  simp [parseIPv6, parseIPv6Loop, xtoi, xtoiLoop, c1, c2, c3, c4]

theorem ParseIPScan_cases (s r : List Char) :
    ParseIPScan s r = none ∨ ParseIPScan s r = parseIPv4 s ∨ ParseIPScan s r = parseIPv6 s := by
  induction r with
  | nil => exact Or.inl rfl
  | cons c rest ih =>
    unfold ParseIPScan
    by_cases h1 : c = '.'
    · simp [h1]
    · by_cases h2 : c = ':'
      · simp [h2]
      · simpa [h1, h2] using ih

theorem ParseIP_head (s : String) (h : ParseIP s ≠ none) : s.data.head? ≠ some '[' := by
  intro hh
  apply h
  unfold ParseIP
  cases hd : s.data with
  | nil => rfl
  | cons c t =>
    rw [hd] at hh
    simp only [List.head?_cons, Option.some.injEq] at hh
    subst hh
    rcases ParseIPScan_cases ('[' :: t) ('[' :: t) with h1 | h1 | h1
    · exact h1
    · rw [h1, parseIPv4_bracket]
    · rw [h1, parseIPv6_bracket]

/-! ## Claims C1 and C2: classification of one address -/

/-- C1: every address value that lies in one of the eight listed ranges (10.0.0.0/8,
172.16.0.0/12, 192.168.0.0/16, 127.0.0.0/8, 169.254.0.0/16, ::1, fe80::/10, fc00::/7) is
classified private by `isPrivateIP`, with `privateIPBlocks` as built by `init`. An IPv4
address may be given in its 4-byte or in its 16-byte form. -/
theorem C1_listed_ranges_are_private (ip : IP) (hb : isBytes ip)
    (h : inListedRanges ip = true) : isPrivateIP ip = true :=
  (isPrivateIP_iff ip hb).mpr (Or.inl h)

/-- C1 at 169.254.169.254 (4-byte form), 10.1.2.3 (16-byte form) and fe80::1. -/
theorem C1_witness :
    isPrivateIP [169, 254, 169, 254] = true ∧ isPrivateIP (IPv4 10 1 2 3) = true ∧
    isPrivateIP [0xfe, 0x80, 0, 0, 0, 0, 0, 0, 0, 0, 0, 0, 0, 0, 0, 1] = true :=
  ⟨C1_listed_ranges_are_private _ (by decide) (by decide),
   C1_listed_ranges_are_private _ (by decide) (by decide),
   C1_listed_ranges_are_private _ (by decide) (by decide)⟩

/-- C2: an address value that lies outside all eight listed ranges and is neither a
loopback address nor a link-local address (unicast or multicast) is classified not
private by `isPrivateIP`. -/
theorem C2_outside_ranges_not_private (ip : IP) (hb : isBytes ip)
    (hout : inListedRanges ip = false) (_hloop : loopbackAddr ip = false)
    (hll : linkLocalAddr ip = false) : isPrivateIP ip = false := by
  rw [← Bool.not_eq_true]
  intro h
  rcases (isPrivateIP_iff ip hb).mp h with h1 | h1
  · rw [hout] at h1; cases h1
  · simp only [linkLocalAddr, Bool.or_eq_false_iff] at hll
    rw [hll.2] at h1; cases h1

/-- C2 at 8.8.8.8, 1.1.1.1 and 2001:4860:4860::8888. -/
theorem C2_witness :
    isPrivateIP [8, 8, 8, 8] = false ∧ isPrivateIP [1, 1, 1, 1] = false ∧
    isPrivateIP [0x20, 0x01, 0x48, 0x60, 0x48, 0x60, 0, 0, 0, 0, 0, 0, 0, 0, 0x88, 0x88] =
      false :=
  ⟨C2_outside_ranges_not_private _ (by decide) (by decide) (by decide) (by decide),
   C2_outside_ranges_not_private _ (by decide) (by decide) (by decide) (by decide),
   C2_outside_ranges_not_private _ (by decide) (by decide) (by decide) (by decide)⟩

/-! ## Claims C3 to C5: the verdict on a host -/

/-- C3: when resolution succeeds and the resolved list contains, at any position, an
address that `isPrivateIP` classifies private, `isPrivateHost` returns `(true, nil)`:
the verdict is Deny, whatever the other addresses are. -/
theorem C3_any_private_address_denies (lookupIP : Resolver) (host : String)
    (hres : (lookupIP host).2 = none)
    (hpriv : ∃ ip ∈ (lookupIP host).1, isPrivateIP ip = true) :
    isPrivateHost lookupIP host = (true, none) := by
  rw [isPrivateHost_ok hres]
  have : (lookupIP host).1.any isPrivateIP = true := List.any_eq_true.mpr hpriv
  rw [this]

/-- C3 on a host that resolves to 8.8.8.8, 10.0.0.1 and 1.1.1.1, in this order. -/
theorem C3_witness :
    isPrivateHost (fun _ => ([[8, 8, 8, 8], [10, 0, 0, 1], [1, 1, 1, 1]], none))
      "rebind.example" = (true, none) :=
  C3_any_private_address_denies _ _ rfl ⟨[10, 0, 0, 1], by decide, by decide⟩

/-- C4: when the resolution of a host name fails, `isPrivateHost` returns the
resolver's error (not nil); the plain-request hook, for every request with that target
host name, returns no request and a response with status 502; the CONNECT hook, for
every target whose split-out host is that name, returns `RejectConnect`. -/
theorem C4_resolution_failure_never_allows (lookupIP : Resolver) (host : String) (e : GoError)
    (hfail : (lookupIP host).2 = some e) :
    (isPrivateHost lookupIP host).2 = some e ∧
    (∀ req : Request, req.URL.Hostname = host →
      (DoFunc lookupIP req).1 = none ∧
      ∃ resp, (DoFunc lookupIP req).2 = some resp ∧ resp.StatusCode = 502) ∧
    (∀ hostport : String, (SplitHostPort hostport).1 = host →
      (HandleConnectFunc lookupIP hostport).1 = ConnectAction.RejectConnect) := by
  have hh := isPrivateHost_err hfail
  refine ⟨by rw [hh], ?_, ?_⟩
  · intro req hreq
    have h2 : (isPrivateHost lookupIP req.URL.Hostname).2 = some e := by rw [hreq, hh]
    rw [DoFunc_err h2]
    exact ⟨rfl, _, rfl, rfl⟩
  · intro hostport hsplit
    cases hs : (SplitHostPort hostport).2.2 with
    | some e2 => rw [HandleConnectFunc_split_err hs]
    | none => rw [HandleConnectFunc_split_ok hs, hsplit, hh]; simp

/-- C4 on a resolver that knows no host, for the host name nowhere.invalid. -/
theorem C4_witness :
    (isPrivateHost (fun _ => ([], some "no such host")) "nowhere.invalid").2 =
      some "no such host" ∧
    DoFunc (fun _ => ([], some "no such host"))
      ⟨"GET", ⟨"http", "nowhere.invalid", "/"⟩⟩ =
      (none, some ⟨⟨"GET", ⟨"http", "nowhere.invalid", "/"⟩⟩, 502,
        [("Content-Type", "text/plain")], "Host not found"⟩) ∧
    (HandleConnectFunc (fun _ => ([], some "no such host")) "nowhere.invalid:443").1 =
      ConnectAction.RejectConnect := by
  have h := C4_resolution_failure_never_allows (fun _ => ([], some "no such host"))
    "nowhere.invalid" "no such host" rfl
  refine ⟨h.1, ?_, h.2.2 "nowhere.invalid:443" (by decide)⟩
  decide

/-- C5: the verdict of `isPrivateHost` determines what was checked. A result
`(false, nil)` (Allow) means that resolution succeeded and `isPrivateIP` is false for
every resolved address; a result `(true, nil)` (Deny) means that `isPrivateIP` is true
for some resolved address; and when resolution succeeds, the short-circuiting loop
returns what checking every address returns. -/
theorem C5_verdict_reflects_all_addresses (lookupIP : Resolver) (host : String) :
    (isPrivateHost lookupIP host = (false, none) →
      (lookupIP host).2 = none ∧ ∀ ip ∈ (lookupIP host).1, isPrivateIP ip = false) ∧
    (isPrivateHost lookupIP host = (true, none) →
      (lookupIP host).2 = none ∧ ∃ ip ∈ (lookupIP host).1, isPrivateIP ip = true) ∧
    ((lookupIP host).2 = none →
      isPrivateHost lookupIP host = ((lookupIP host).1.any isPrivateIP, none)) := by
  refine ⟨?_, ?_, isPrivateHost_ok⟩
  · intro h
    cases hr : (lookupIP host).2 with
    | some e => rw [isPrivateHost_err hr] at h; cases h
    | none =>
      refine ⟨rfl, ?_⟩
      rw [isPrivateHost_ok hr] at h
      have h1 : (lookupIP host).1.any isPrivateIP = false := congrArg Prod.fst h
      intro ip hip
      rw [← Bool.not_eq_true]
      intro hp
      have : (lookupIP host).1.any isPrivateIP = true := List.any_eq_true.mpr ⟨ip, hip, hp⟩
      rw [h1] at this; cases this
  · intro h
    cases hr : (lookupIP host).2 with
    | some e => rw [isPrivateHost_err hr] at h; cases h
    | none =>
      refine ⟨rfl, ?_⟩
      rw [isPrivateHost_ok hr] at h
      have h1 : (lookupIP host).1.any isPrivateIP = true := congrArg Prod.fst h
      exact List.any_eq_true.mp h1

/-- C5 on a host that resolves to 8.8.8.8 and 2001:4860:4860::8888: the verdict is
Allow and both addresses are classified not private. -/
theorem C5_witness :
    isPrivateIP [8, 8, 8, 8] = false ∧
    isPrivateIP [0x20, 0x01, 0x48, 0x60, 0x48, 0x60, 0, 0, 0, 0, 0, 0, 0, 0, 0x88, 0x88] =
      false :=
  have h := ((C5_verdict_reflects_all_addresses
    (fun _ => ([[8, 8, 8, 8],
      [0x20, 0x01, 0x48, 0x60, 0x48, 0x60, 0, 0, 0, 0, 0, 0, 0, 0, 0x88, 0x88]], none))
    "dns.google").1 (by decide)).2
  ⟨h _ (List.mem_cons_self _ _), h _ (List.mem_cons_of_mem _ (List.mem_cons_self _ _))⟩

/-! ## Claims C6 and C7: the plain-request hook -/

/-- C6: for every request, when the target host name resolves to a list that contains
a private address, the plain-request hook returns no request and a response with status
403, content type text/plain and body "Private IP is not allowed"; when the host name
fails to resolve, it returns no request and a response with status 502, content type
text/plain and body "Host not found". -/
theorem C6_plain_hook_denial_responses (lookupIP : Resolver) (req : Request) :
    (((lookupIP req.URL.Hostname).2 = none ∧
        ∃ ip ∈ (lookupIP req.URL.Hostname).1, isPrivateIP ip = true) →
      (DoFunc lookupIP req).1 = none ∧
      ∃ resp, (DoFunc lookupIP req).2 = some resp ∧ resp.StatusCode = 403 ∧
        resp.contentType = some "text/plain" ∧ resp.Body = "Private IP is not allowed") ∧
    ((lookupIP req.URL.Hostname).2 ≠ none →
      (DoFunc lookupIP req).1 = none ∧
      ∃ resp, (DoFunc lookupIP req).2 = some resp ∧ resp.StatusCode = 502 ∧
        resp.contentType = some "text/plain" ∧ resp.Body = "Host not found") := by
  constructor
  · rintro ⟨hres, hpriv⟩
    have h : isPrivateHost lookupIP req.URL.Hostname = (true, none) := by
      rw [isPrivateHost_ok hres, List.any_eq_true.mpr hpriv]
    rw [DoFunc_ok h]
    exact ⟨rfl, _, rfl, rfl, rfl, rfl⟩
  · intro hres
    cases hr : (lookupIP req.URL.Hostname).2 with
    | none => exact absurd hr hres
    | some e =>
      have h : (isPrivateHost lookupIP req.URL.Hostname).2 = some e := by
        rw [isPrivateHost_err hr]
      rw [DoFunc_err h]
      exact ⟨rfl, _, rfl, rfl, rfl, rfl⟩

/-- C6 on a request to http://localhost/, with localhost resolving to 127.0.0.1: the
hook answers 403 with the body "Private IP is not allowed". -/
theorem C6_witness :
    ∃ resp,
      (DoFunc (fun host => if host = "localhost" then ([[127, 0, 0, 1]], none)
          else ([], some "no such host"))
        ⟨"GET", ⟨"http", "localhost", "/"⟩⟩).2 = some resp ∧
      resp.StatusCode = 403 ∧ resp.contentType = some "text/plain" ∧
      resp.Body = "Private IP is not allowed" :=
  ((C6_plain_hook_denial_responses
    (fun host => if host = "localhost" then ([[127, 0, 0, 1]], none)
      else ([], some "no such host"))
    ⟨"GET", ⟨"http", "localhost", "/"⟩⟩).1
    ⟨by decide, [127, 0, 0, 1], by decide, by decide⟩).2

/-- C7: for every request whose target host name resolves without error to a list with
no private address, the plain-request hook returns the request it was given, unchanged,
and no response. -/
theorem C7_plain_hook_passes_public (lookupIP : Resolver) (req : Request)
    (hres : (lookupIP req.URL.Hostname).2 = none)
    (hpub : ∀ ip ∈ (lookupIP req.URL.Hostname).1, isPrivateIP ip = false) :
    DoFunc lookupIP req = (some req, none) := by
  have h : isPrivateHost lookupIP req.URL.Hostname = (false, none) := by
    rw [isPrivateHost_ok hres, (any_false_iff _).mpr hpub]
  rw [DoFunc_ok h]
  rfl

/-- C7 on a request to http://example.com/index.html, with example.com resolving to
93.184.216.34. -/
theorem C7_witness :
    DoFunc (fun _ => ([[93, 184, 216, 34]], none))
        ⟨"GET", ⟨"http", "example.com", "/index.html"⟩⟩ =
      (some ⟨"GET", ⟨"http", "example.com", "/index.html"⟩⟩, none) :=
  C7_plain_hook_passes_public _ _ rfl (by decide)

/-! ## Claim C8: the CONNECT hook -/

/-- C8: for every CONNECT target, the CONNECT hook returns `OkConnect` exactly when
`net.SplitHostPort` succeeds on the target, the split-out host resolves without error
and no resolved address is private; in every other case it returns `RejectConnect`; and
the second component of the result is always the target it was given. -/
theorem C8_connect_hook_decision (lookupIP : Resolver) (hostport : String) :
    ((HandleConnectFunc lookupIP hostport).1 = ConnectAction.OkConnect ↔
      ((SplitHostPort hostport).2.2 = none ∧
       (lookupIP (SplitHostPort hostport).1).2 = none ∧
       ∀ ip ∈ (lookupIP (SplitHostPort hostport).1).1, isPrivateIP ip = false)) ∧
    ((HandleConnectFunc lookupIP hostport).1 ≠ ConnectAction.OkConnect →
      (HandleConnectFunc lookupIP hostport).1 = ConnectAction.RejectConnect) ∧
    (HandleConnectFunc lookupIP hostport).2 = hostport := by
  cases hs : (SplitHostPort hostport).2.2 with
  | some e =>
    rw [HandleConnectFunc_split_err hs]
    simp
  | none =>
    rw [HandleConnectFunc_split_ok hs]
    cases hr : (lookupIP (SplitHostPort hostport).1).2 with
    | some e => simp [isPrivateHost_err hr]
    | none =>
      rw [isPrivateHost_ok hr]
      cases ha : (lookupIP (SplitHostPort hostport).1).1.any isPrivateIP with
      | true =>
        have : ¬ ∀ ip ∈ (lookupIP (SplitHostPort hostport).1).1, isPrivateIP ip = false := by
          rw [← any_false_iff, ha]; simp
        simp [this]
      | false =>
        have := (any_false_iff _).mp ha
        simp
        exact this

/-- C8 on the target example.com:443, with example.com resolving to 93.184.216.34 and
2606:2800:220:1:248:1893:25c8:1946: the tunnel is permitted and the target is echoed. -/
theorem C8_witness :
    HandleConnectFunc (fun _ => ([[93, 184, 216, 34],
        [0x26, 0x06, 0x28, 0x00, 0x02, 0x20, 0x00, 0x01, 0x02, 0x48, 0x18, 0x93, 0x25, 0xc8,
          0x19, 0x46]], none)) "example.com:443" =
      (ConnectAction.OkConnect, "example.com:443") :=
  have h := C8_connect_hook_decision (fun _ => ([[93, 184, 216, 34],
        [0x26, 0x06, 0x28, 0x00, 0x02, 0x20, 0x00, 0x01, 0x02, 0x48, 0x18, 0x93, 0x25, 0xc8,
          0x19, 0x46]], none)) "example.com:443"
  Prod.ext (h.1.mpr ⟨by decide, by decide, by decide⟩) h.2.2

/-! ## Claims C9 and C10: malformed targets and literal addresses -/

/-- C9: a CONNECT target on which `net.SplitHostPort` fails is rejected, and the result
does not depend on the resolver; every target without a colon is such a target. -/
theorem C9_malformed_target_rejected (hostport : String) :
    ((':' ∉ hostport.data) → (SplitHostPort hostport).2.2 ≠ none) ∧
    ((SplitHostPort hostport).2.2 ≠ none →
      ∀ r1 r2 : Resolver,
        HandleConnectFunc r1 hostport = (ConnectAction.RejectConnect, hostport) ∧
        HandleConnectFunc r1 hostport = HandleConnectFunc r2 hostport) := by
  refine ⟨SplitHostPort_no_colon hostport, ?_⟩
  intro h r1 r2
  cases hs : (SplitHostPort hostport).2.2 with
  | none => exact absurd hs h
  | some e => rw [HandleConnectFunc_split_err hs, HandleConnectFunc_split_err hs]; exact ⟨rfl, rfl⟩

/-- C9 on the target not-a-valid-hostport, with a resolver that would allow every host
and one that knows none. -/
theorem C9_witness :
    HandleConnectFunc (fun _ => ([[8, 8, 8, 8]], none)) "not-a-valid-hostport" =
      (ConnectAction.RejectConnect, "not-a-valid-hostport") ∧
    HandleConnectFunc (fun _ => ([[8, 8, 8, 8]], none)) "not-a-valid-hostport" =
      HandleConnectFunc (fun _ => ([], some "no such host")) "not-a-valid-hostport" :=
  (C9_malformed_target_rejected "not-a-valid-hostport").2
    ((C9_malformed_target_rejected "not-a-valid-hostport").1 (by decide)) _ _

/-- C10: a CONNECT target whose host is the text of an IP literal, written bare
(`literal:port`) or in brackets (`[literal]:port`, the form of an IPv6 host), is
rejected for every port, when the resolver maps the literal to its single address and
that address lies in a listed (private, loopback, link-local) range or is a link-local
address. -/
theorem C10_private_literal_rejected (lookupIP : Resolver) (lit port : String) (ip : IP)
    (hlit : ParseIP lit ≠ none) (hb : isBytes ip)
    (hrange : inListedRanges ip = true ∨ linkLocalAddr ip = true)
    (hres : lookupIP lit = ([ip], none)) :
    HandleConnectFunc lookupIP (lit ++ ":" ++ port) =
      (ConnectAction.RejectConnect, lit ++ ":" ++ port) ∧
    HandleConnectFunc lookupIP ("[" ++ lit ++ "]:" ++ port) =
      (ConnectAction.RejectConnect, "[" ++ lit ++ "]:" ++ port) := by
  have hs1 : lit ++ ":" ++ port = String.mk (lit.data ++ ':' :: port.data) := by
    apply String.ext
    simp [String.data_append]
  have hs2 : "[" ++ lit ++ "]:" ++ port =
      String.mk ('[' :: (lit.data ++ ']' :: ':' :: port.data)) := by
    apply String.ext
    simp [String.data_append]
  have hpriv : isPrivateIP ip = true := by
    rw [isPrivateIP_iff ip hb]
    rcases hrange with h | h
    · exact Or.inl h
    · simp only [linkLocalAddr, linkLocalUnicastAddr, Bool.or_eq_true] at h
      rcases h with (h | h) | h
      · left; simp [inListedRanges, h]
      · left; simp [inListedRanges, h]
      · exact Or.inr h
  have hr2 : (lookupIP lit).2 = none := by rw [hres]
  have key : ∀ hostport : String,
      ((SplitHostPort hostport).2.2 ≠ none ∨ (SplitHostPort hostport).1 = lit) →
      HandleConnectFunc lookupIP hostport = (ConnectAction.RejectConnect, hostport) := by
    intro hostport hcases
    cases hsp : (SplitHostPort hostport).2.2 with
    | some e => exact HandleConnectFunc_split_err hsp
    | none =>
      have hhost : (SplitHostPort hostport).1 = lit := by
        rcases hcases with h | h
        · exact absurd hsp h
        · exact h
      rw [HandleConnectFunc_split_ok hsp, hhost, isPrivateHost_ok hr2, hres]
      simp [hpriv]
  constructor
  · apply key
    rw [hs1]
    exact SplitHostPort_literal lit.data port.data (ParseIP_head lit hlit)
  · apply key
    rw [hs2]
    exact SplitHostPort_bracketed lit.data port.data

/-- C10 on the targets 169.254.169.254:443 (the cloud metadata endpoint), [::1]:443 and
[fe80::1]:8080, with a resolver that maps each literal to the address it denotes. -/
theorem C10_witness :
    HandleConnectFunc
      (fun host => match ParseIP host with
        | some ip => ([ip], none)
        | none => ([], some "no such host"))
      "169.254.169.254:443" = (ConnectAction.RejectConnect, "169.254.169.254:443") ∧
    HandleConnectFunc
      (fun host => match ParseIP host with
        | some ip => ([ip], none)
        | none => ([], some "no such host"))
      "[::1]:443" = (ConnectAction.RejectConnect, "[::1]:443") ∧
    HandleConnectFunc
      (fun host => match ParseIP host with
        | some ip => ([ip], none)
        | none => ([], some "no such host"))
      "[fe80::1]:8080" = (ConnectAction.RejectConnect, "[fe80::1]:8080") :=
  ⟨(C10_private_literal_rejected _ "169.254.169.254" "443" (IPv4 169 254 169 254)
      (by decide) (by decide) (Or.inl (by decide)) (by decide)).1,
   (C10_private_literal_rejected _ "::1" "443"
      [0, 0, 0, 0, 0, 0, 0, 0, 0, 0, 0, 0, 0, 0, 0, 1]
      (by decide) (by decide) (Or.inl (by decide)) (by decide)).2,
   (C10_private_literal_rejected _ "fe80::1" "8080"
      [0xfe, 0x80, 0, 0, 0, 0, 0, 0, 0, 0, 0, 0, 0, 0, 0, 1]
      (by decide) (by decide) (Or.inl (by decide)) (by decide)).2⟩

/-! ## The hooks as functions of the verdict -/

theorem DoFunc_pass_iff (lookupIP : Resolver) (req : Request) :
    DoFunc lookupIP req = (some req, none) ↔
      isPrivateHost lookupIP req.URL.Hostname = (false, none) := by
  rcases hp : isPrivateHost lookupIP req.URL.Hostname with ⟨isPrivate, err⟩
  cases err with
  | some e =>
    have h2 : (isPrivateHost lookupIP req.URL.Hostname).2 = some e := by rw [hp]
    rw [DoFunc_err h2]
    simp
  | none =>
    rw [DoFunc_ok hp]
    cases isPrivate <;> simp

theorem HandleConnectFunc_ok_iff (lookupIP : Resolver) (hostport : String)
    (hs : (SplitHostPort hostport).2.2 = none) :
    (HandleConnectFunc lookupIP hostport).1 = ConnectAction.OkConnect ↔
      isPrivateHost lookupIP (SplitHostPort hostport).1 = (false, none) := by
  rw [HandleConnectFunc_split_ok hs]
  by_cases h : isPrivateHost lookupIP (SplitHostPort hostport).1 = (false, none)
  · simp [h]
  · simp [h]

/-! ## The run-time checks never fail -/

theorem index_eq {xs : List Nat} {i : Nat} (h : i < xs.length) :
    index xs i = some (xs.getD i 0) := by
  simp [index, List.getElem?_eq_getElem h]

theorem slice_eq {xs : List Nat} {lo hi : Nat} (h1 : lo ≤ hi) (h2 : hi ≤ xs.length) :
    slice xs lo hi = some ((xs.take hi).drop lo) := by
  simp [slice, h1, h2]

theorem To4Checked_eq (ip : IP) : To4Checked ip = some (To4 ip) := by
  unfold To4Checked To4
  by_cases h4 : ip.length = IPv4len
  · simp [h4]
  · by_cases h16 : ip.length = IPv6len
    · have i10 : index ip 10 = some (ip.getD 10 0) := index_eq (by rw [h16]; decide)
      have i11 : index ip 11 = some (ip.getD 11 0) := index_eq (by rw [h16]; decide)
      have s1 : slice ip 0 10 = some (ip.take 10) := by
        rw [slice_eq (by decide) (by rw [h16]; decide)]; simp
      have s2 : slice ip 12 16 = some ((ip.take 16).drop 12) :=
        slice_eq (by decide) (by rw [h16])
      simp only [h4, h16, if_false, if_true, s1, i10, i11, s2, Option.bind_eq_bind,
        Option.some_bind, true_and]
      generalize ip.getD 10 0 = x10
      generalize ip.getD 11 0 = x11
      generalize isZeros (ip.take 10) = z
      cases z
      · simp
      · by_cases h10 : x10 = 255
        · by_cases h11 : x11 = 255
          · simp [h10, h11]
          · simp [h10, h11]
        · simp [h10]
    · simp [h4, h16]

theorem EqualChecked_eq (ip x : IP) : EqualChecked ip x = some (Equal ip x) := by
  unfold EqualChecked Equal
  by_cases h : ip.length = x.length
  · simp [h]
  · by_cases h1 : ip.length = IPv4len ∧ x.length = IPv6len
    · have s1 : slice x 0 12 = some (x.take 12) := by
        rw [slice_eq (by decide) (by rw [h1.2]; decide)]; simp
      have s2 : slice x 12 x.length = some (x.drop 12) := by
        rw [slice_eq (by rw [h1.2]; decide) (Nat.le_refl _)]; simp
      simp only [h, h1, if_false, if_true, s1, s2, Option.bind_eq_bind, Option.some_bind,
        and_self]
      rw [h1.2] at s2
      cases (x.take 12 == v4InV6Prefix) <;> simp [s2]
    · by_cases h2 : ip.length = IPv6len ∧ x.length = IPv4len
      · have s1 : slice ip 0 12 = some (ip.take 12) := by
          rw [slice_eq (by decide) (by rw [h2.1]; decide)]; simp
        have s2 : slice ip 12 ip.length = some (ip.drop 12) := by
          rw [slice_eq (by rw [h2.1]; decide) (Nat.le_refl _)]; simp
        simp only [h, h1, h2, if_false, if_true, s1, s2, Option.bind_eq_bind,
          Option.some_bind, and_self]
        rw [h2.1] at s2
        cases (ip.take 12 == v4InV6Prefix) <;> simp [s2]
      · simp [h, h1, h2]

theorem IsLoopbackChecked_eq (ip : IP) : IsLoopbackChecked ip = some (IsLoopback ip) := by
  unfold IsLoopbackChecked IsLoopback
  rw [To4Checked_eq]
  cases h : To4 ip with
  | none => simp [EqualChecked_eq]
  | some ip4 =>
    have hl := To4_length h
    have i0 : index ip4 0 = some (ip4.getD 0 0) := index_eq (by rw [hl]; decide)
    simp [i0]

theorem IsLinkLocalUnicastChecked_eq (ip : IP) :
    IsLinkLocalUnicastChecked ip = some (IsLinkLocalUnicast ip) := by
  unfold IsLinkLocalUnicastChecked IsLinkLocalUnicast
  rw [To4Checked_eq]
  cases h : To4 ip with
  | none =>
    by_cases h16 : ip.length = IPv6len
    · have i0 : index ip 0 = some (ip.getD 0 0) := index_eq (by rw [h16]; decide)
      have i1 : index ip 1 = some (ip.getD 1 0) := index_eq (by rw [h16]; decide)
      simp only [Option.bind_eq_bind, Option.some_bind, i0, i1, h16, beq_self_eq_true,
        if_true, Bool.true_and]
      generalize ip.getD 0 0 = x0
      generalize ip.getD 1 0 = x1
      by_cases h0 : x0 = 254 <;> simp [h0]
    · simp [h16]
  | some ip4 =>
    have hl := To4_length h
    have i0 : index ip4 0 = some (ip4.getD 0 0) := index_eq (by rw [hl]; decide)
    have i1 : index ip4 1 = some (ip4.getD 1 0) := index_eq (by rw [hl]; decide)
    simp only [Option.bind_eq_bind, Option.some_bind, i0, i1]
    generalize ip4.getD 0 0 = x0
    generalize ip4.getD 1 0 = x1
    by_cases h0 : x0 = 169 <;> simp [h0]

theorem IsLinkLocalMulticastChecked_eq (ip : IP) :
    IsLinkLocalMulticastChecked ip = some (IsLinkLocalMulticast ip) := by
  unfold IsLinkLocalMulticastChecked IsLinkLocalMulticast
  rw [To4Checked_eq]
  cases h : To4 ip with
  | none =>
    by_cases h16 : ip.length = IPv6len
    · have i0 : index ip 0 = some (ip.getD 0 0) := index_eq (by rw [h16]; decide)
      have i1 : index ip 1 = some (ip.getD 1 0) := index_eq (by rw [h16]; decide)
      simp only [Option.bind_eq_bind, Option.some_bind, i0, i1, h16, beq_self_eq_true,
        if_true, Bool.true_and]
      generalize ip.getD 0 0 = x0
      generalize ip.getD 1 0 = x1
      by_cases h0 : x0 = 255 <;> simp [h0]
    · simp [h16]
  | some ip4 =>
    have hl := To4_length h
    have i0 : index ip4 0 = some (ip4.getD 0 0) := index_eq (by rw [hl]; decide)
    have i1 : index ip4 1 = some (ip4.getD 1 0) := index_eq (by rw [hl]; decide)
    have i2 : index ip4 2 = some (ip4.getD 2 0) := index_eq (by rw [hl]; decide)
    simp only [Option.bind_eq_bind, Option.some_bind, i0, i1, i2]
    generalize ip4.getD 0 0 = x0
    generalize ip4.getD 1 0 = x1
    generalize ip4.getD 2 0 = x2
    by_cases h0 : x0 = 224
    · by_cases h1 : x1 = 0 <;> simp [h0, h1]
    · simp [h0]

theorem networkNumberAndMaskChecked_eq (n : IPNet) :
    networkNumberAndMaskChecked n = some (networkNumberAndMask n) := by
  unfold networkNumberAndMaskChecked networkNumberAndMask
  rw [To4Checked_eq]
  simp only [Option.bind_eq_bind, Option.some_bind, Option.pure_def]
  have key : ∀ ip? : Option IP,
      (match ip? with
        | none => some (([], []) : IP × IPMask)
        | some ip =>
          if n.Mask.length = IPv4len then
            if ip.length ≠ IPv4len then some ([], []) else some (ip, n.Mask)
          else if n.Mask.length = IPv6len then
            if ip.length = IPv4len then
              (slice n.Mask 12 n.Mask.length).bind fun m => some (ip, m)
            else some (ip, n.Mask)
          else some ([], [])) =
      some (match ip? with
        | none => ([], [])
        | some ip =>
          if n.Mask.length = IPv4len then
            if ip.length ≠ IPv4len then ([], []) else (ip, n.Mask)
          else if n.Mask.length = IPv6len then
            if ip.length = IPv4len then (ip, n.Mask.drop 12) else (ip, n.Mask)
          else ([], [])) := by
    intro ip?
    cases ip? with
    | none => rfl
    | some ip =>
      by_cases hm4 : n.Mask.length = IPv4len
      · by_cases hi : ip.length = IPv4len <;> simp [hm4, hi]
      · by_cases hm16 : n.Mask.length = IPv6len
        · have s1 : slice n.Mask 12 n.Mask.length = some (n.Mask.drop 12) := by
            rw [slice_eq (by rw [hm16]; decide) (Nat.le_refl _)]; simp
          by_cases hi : ip.length = IPv4len <;> simp [hm4, hm16, hi, s1]
          rw [hm16] at s1
          simp [s1]
        · simp [hm4, hm16]
  cases h : To4 n.IP with
  | some ip => exact key (some ip)
  | none =>
    by_cases h16 : n.IP.length = IPv6len
    · simpa [h16] using key (some n.IP)
    · simp [h16]

theorem networkNumberAndMask_lengths (n : IPNet) :
    (networkNumberAndMask n).1.length = (networkNumberAndMask n).2.length := by
  unfold networkNumberAndMask
  have key : ∀ ip : IP, (ip.length = 4 ∨ ip.length = 16) →
      (if n.Mask.length = IPv4len then
          if ip.length ≠ IPv4len then (([], []) : IP × IPMask) else (ip, n.Mask)
        else if n.Mask.length = IPv6len then
          if ip.length = IPv4len then (ip, n.Mask.drop 12) else (ip, n.Mask)
        else ([], [])).1.length =
      (if n.Mask.length = IPv4len then
          if ip.length ≠ IPv4len then (([], []) : IP × IPMask) else (ip, n.Mask)
        else if n.Mask.length = IPv6len then
          if ip.length = IPv4len then (ip, n.Mask.drop 12) else (ip, n.Mask)
        else ([], [])).2.length := by
    intro ip hip
    by_cases hm4 : n.Mask.length = IPv4len
    · by_cases hi : ip.length = IPv4len <;> simp [hm4, hi]
    · by_cases hm16 : n.Mask.length = IPv6len
      · by_cases hi : ip.length = IPv4len
        · simp [hm4, hm16, hi]
          rfl
        · rcases hip with h | h
          · exact absurd h hi
          · simp [hm4, hm16, hi, h]
      · simp [hm4, hm16]
  cases h : To4 n.IP with
  | some ip => exact key ip (Or.inl (To4_length h))
  | none =>
    by_cases h16 : n.IP.length = IPv6len
    · simpa [h16] using key n.IP (Or.inr h16)
    · simp [h16]

theorem containsLoopChecked_eq (nn m ip : List Nat) (is : List Nat)
    (h : ∀ i ∈ is, i < nn.length ∧ i < m.length ∧ i < ip.length) :
    containsLoopChecked nn m ip is =
      some (is.all fun i => nn.getD i 0 &&& m.getD i 0 == ip.getD i 0 &&& m.getD i 0) := by
  induction is with
  | nil => rfl
  | cons i rest ih =>
    obtain ⟨h1, h2, h3⟩ := h i (List.mem_cons_self _ _)
    have ih' := ih fun j hj => h j (List.mem_cons_of_mem _ hj)
    simp only [containsLoopChecked, index_eq h1, index_eq h2, index_eq h3,
      Option.bind_eq_bind, Option.some_bind, ih', List.all_cons]
    generalize nn.getD i 0 &&& m.getD i 0 = x
    generalize ip.getD i 0 &&& m.getD i 0 = y
    by_cases hxy : x = y <;> simp [hxy]

theorem ContainsChecked_eq (n : IPNet) (ip : IP) :
    ContainsChecked n ip = some (Contains n ip) := by
  unfold ContainsChecked Contains
  rw [networkNumberAndMaskChecked_eq, To4Checked_eq]
  have hl := networkNumberAndMask_lengths n
  rcases hn : networkNumberAndMask n with ⟨nn, m⟩
  rw [hn] at hl
  simp only at hl
  have key : ∀ x : IP,
      (if x.length ≠ nn.length then some false
        else containsLoopChecked nn m x (List.range x.length)) =
      some (if x.length ≠ nn.length then false
        else (List.range x.length).all fun i =>
          nn.getD i 0 &&& m.getD i 0 == x.getD i 0 &&& m.getD i 0) := by
    intro x
    by_cases hx : x.length = nn.length
    · simp only [hx, ne_eq, not_true_eq_false, if_false]
      apply containsLoopChecked_eq
      intro i hi
      have := List.mem_range.mp hi
      omega
    · simp [hx]
  cases h : To4 ip with
  | some x => simpa using key x
  | none => simpa using key ip

theorem isPrivateIPLoopChecked_eq (ip : IP) (blocks : List IPNet) :
    isPrivateIPLoopChecked ip blocks = some (isPrivateIPLoop ip blocks) := by
  induction blocks with
  | nil => rfl
  | cons block rest ih =>
    simp only [isPrivateIPLoopChecked, isPrivateIPLoop, ContainsChecked_eq, ih,
      Option.bind_eq_bind, Option.some_bind]
    cases Contains block ip <;> simp

theorem isPrivateIPRun_eq (blocks : List IPNet) (ip : IP) :
    isPrivateIPRun blocks ip =
      some (if IsLoopback ip || IsLinkLocalUnicast ip || IsLinkLocalMulticast ip then true
        else isPrivateIPLoop ip blocks, blocks) := by
  simp only [isPrivateIPRun, IsLoopbackChecked_eq, IsLinkLocalUnicastChecked_eq,
    IsLinkLocalMulticastChecked_eq, isPrivateIPLoopChecked_eq, Option.bind_eq_bind,
    Option.some_bind]
  cases IsLoopback ip <;> cases IsLinkLocalUnicast ip <;> cases IsLinkLocalMulticast ip <;>
    simp

/-! ## The three predicates and the eight blocks, one by one -/

theorem predicates_To4 {ip x : IP} (h : To4 ip = some x) :
    IsLoopback ip = IsLoopback x ∧ IsLinkLocalUnicast ip = IsLinkLocalUnicast x ∧
    IsLinkLocalMulticast ip = IsLinkLocalMulticast x ∧
    ∀ n : IPNet, Contains n ip = Contains n x := by
  have hx : To4 x = some x := To4_of_length_four (To4_length h)
  refine ⟨?_, ?_, ?_, fun n => ?_⟩ <;>
    simp only [IsLoopback, IsLinkLocalUnicast, IsLinkLocalMulticast, Contains, h, hx]

theorem evaluation_v4 (a b c d : Nat) (ha : a < 256) (hb : b < 256) :
    IsLoopback [a, b, c, d] = decide (a = 127) ∧
    IsLinkLocalUnicast [a, b, c, d] = decide (a = 169 ∧ b = 254) ∧
    IsLinkLocalMulticast [a, b, c, d] = decide (a = 224 ∧ b = 0 ∧ c = 0) ∧
    privateIPBlocks.map (fun block => Contains block [a, b, c, d]) =
      [decide (a = 127), decide (a = 10), decide (a = 172 ∧ b / 16 = 1),
       decide (a = 192 ∧ b = 168), decide (a = 169 ∧ b = 254), false, false, false] := by
  have n := networkNumberAndMask_table
  simp only [privateIPBlocks_eq, List.map_cons, List.map_nil, List.cons.injEq, and_true] at n
  obtain ⟨n1, n2, n3, n4, n5, n6, n7, n8⟩ := n
  have t : To4 [a, b, c, d] = some [a, b, c, d] := rfl
  have c1 : (127 &&& 255 : Nat) = 127 := by decide
  have c2 : (10 &&& 255 : Nat) = 10 := by decide
  have c3 : (172 &&& 255 : Nat) = 172 := by decide
  have c4 : (16 &&& 240 : Nat) = 16 := by decide
  have c5 : (192 &&& 255 : Nat) = 192 := by decide
  have c6 : (168 &&& 255 : Nat) = 168 := by decide
  have c7 : (169 &&& 255 : Nat) = 169 := by decide
  have c8 : (254 &&& 255 : Nat) = 254 := by decide
  have e1 : (16 = b / 16 * 16) ↔ b / 16 = 1 := by omega
  have e : ∀ p q : Bool, (p = true ↔ q = true) → p = q := by decide
  simp only [privateIPBlocks_eq, List.map_cons, List.map_nil, List.cons.injEq, and_true]
  refine ⟨e _ _ ?_, e _ _ ?_, e _ _ ?_, e _ _ ?_, e _ _ ?_, e _ _ ?_, e _ _ ?_, e _ _ ?_,
    ?_, ?_, ?_⟩ <;>
  simp only [IsLoopback, IsLinkLocalUnicast, IsLinkLocalMulticast, Contains, t,
    n1, n2, n3, n4, n5, n6, n7, n8, List.length_cons, List.length_nil, Nat.reduceAdd, ne_eq,
    Nat.reduceEqDiff, not_true_eq_false, not_false_eq_true, if_true, if_false, range4,
    List.all_cons, List.all_nil, List.getD_cons_zero, List.getD_cons_succ, Nat.and_zero,
    land_255 ha, land_255 hb, land_240 hb, c1, c2, c3, c4, c5, c6, c7, c8, Bool.or_false,
    Bool.and_true, beq_self_eq_true, Bool.or_eq_true, Bool.and_eq_true, beq_iff_eq, e1,
    decide_eq_true_eq, @eq_comm Nat 127, @eq_comm Nat 10, @eq_comm Nat 172,
    @eq_comm Nat 192, @eq_comm Nat 168, @eq_comm Nat 169, @eq_comm Nat 254, and_assoc]

theorem evaluation_v6 (a0 a1 a2 a3 a4 a5 a6 a7 a8 a9 a10 a11 a12 a13 a14 a15 : Nat)
    (hb : isBytes [a0, a1, a2, a3, a4, a5, a6, a7, a8, a9, a10, a11, a12, a13, a14, a15])
    (h4 : To4 [a0, a1, a2, a3, a4, a5, a6, a7, a8, a9, a10, a11, a12, a13, a14, a15] = none) :
    IsLoopback [a0, a1, a2, a3, a4, a5, a6, a7, a8, a9, a10, a11, a12, a13, a14, a15] =
      decide (a0 = 0 ∧ a1 = 0 ∧ a2 = 0 ∧ a3 = 0 ∧ a4 = 0 ∧ a5 = 0 ∧ a6 = 0 ∧ a7 = 0 ∧
        a8 = 0 ∧ a9 = 0 ∧ a10 = 0 ∧ a11 = 0 ∧ a12 = 0 ∧ a13 = 0 ∧ a14 = 0 ∧ a15 = 1) ∧
    IsLinkLocalUnicast [a0, a1, a2, a3, a4, a5, a6, a7, a8, a9, a10, a11, a12, a13, a14, a15] =
      decide (a0 = 254 ∧ a1 / 64 = 2) ∧
    IsLinkLocalMulticast
        [a0, a1, a2, a3, a4, a5, a6, a7, a8, a9, a10, a11, a12, a13, a14, a15] =
      decide (a0 = 255 ∧ a1 % 16 = 2) ∧
    privateIPBlocks.map (fun block =>
        Contains block [a0, a1, a2, a3, a4, a5, a6, a7, a8, a9, a10, a11, a12, a13, a14, a15]) =
      [false, false, false, false, false,
       decide (a0 = 0 ∧ a1 = 0 ∧ a2 = 0 ∧ a3 = 0 ∧ a4 = 0 ∧ a5 = 0 ∧ a6 = 0 ∧ a7 = 0 ∧
        a8 = 0 ∧ a9 = 0 ∧ a10 = 0 ∧ a11 = 0 ∧ a12 = 0 ∧ a13 = 0 ∧ a14 = 0 ∧ a15 = 1),
       decide (a0 = 254 ∧ a1 / 64 = 2), decide (a0 / 2 = 126)] := by
  have n := networkNumberAndMask_table
  simp only [privateIPBlocks_eq, List.map_cons, List.map_nil, List.cons.injEq, and_true] at n
  obtain ⟨n1, n2, n3, n4, n5, n6, n7, n8⟩ := n
  obtain ⟨h0, h1, h2, h3, h5, h6, h7, h8, h9, h10, h11, h12, h13, h14, h15, h16⟩ :=
    isBytes_sixteen hb
  have c0 : (0 &&& 255 : Nat) = 0 := by decide
  have c1 : (254 &&& 255 : Nat) = 254 := by decide
  have c2 : (128 &&& 192 : Nat) = 128 := by decide
  have c3 : (252 &&& 254 : Nat) = 252 := by decide
  have c4 : (1 &&& 255 : Nat) = 1 := by decide
  have e1 : (128 = a1 / 64 * 64) ↔ a1 / 64 = 2 := by omega
  have e2 : (a1 / 64 * 64 = 128) ↔ a1 / 64 = 2 := by omega
  have e3 : (252 = a0 / 2 * 2) ↔ a0 / 2 = 126 := by omega
  have e : ∀ p q : Bool, (p = true ↔ q = true) → p = q := by decide
  simp only [privateIPBlocks_eq, List.map_cons, List.map_nil, List.cons.injEq, and_true]
  refine ⟨e _ _ ?_, e _ _ ?_, e _ _ ?_, ?_, ?_, ?_, ?_, ?_, e _ _ ?_, e _ _ ?_, e _ _ ?_⟩ <;>
  simp only [IsLoopback, IsLinkLocalUnicast, IsLinkLocalMulticast, Contains, h4,
    n1, n2, n3, n4, n5, n6, n7, n8, List.length_cons, List.length_nil, Nat.reduceAdd, ne_eq,
    Nat.reduceEqDiff, not_true_eq_false, not_false_eq_true, if_true, if_false, range16,
    List.all_cons, List.all_nil, List.getD_cons_zero, List.getD_cons_succ, Nat.and_zero,
    land_255 h0, land_255 h1, land_255 h2, land_255 h3, land_255 h5, land_255 h6, land_255 h7,
    land_255 h8, land_255 h9, land_255 h10, land_255 h11, land_255 h12, land_255 h13,
    land_255 h14, land_255 h15, land_255 h16, land_192 h1, land_254 h0, land_15 h1, Equal,
    Bool.or_false, Bool.false_or, Bool.and_true, beq_self_eq_true, Bool.true_and,
    c0, c1, c2, c3, c4, Bool.or_eq_true, Bool.and_eq_true, beq_iff_eq, e1, e2, e3,
    decide_eq_true_eq, @eq_comm Nat 0, @eq_comm Nat 1, @eq_comm Nat 254, List.cons.injEq,
    and_true, and_assoc]

theorem evaluation_other {ip : IP} (h4 : To4 ip = none) (h16 : ip.length ≠ 16) :
    IsLoopback ip = false ∧ IsLinkLocalUnicast ip = false ∧
    IsLinkLocalMulticast ip = false ∧
    privateIPBlocks.map (fun block => Contains block ip) =
      [false, false, false, false, false, false, false, false] := by
  have hl := To4_none_length h4
  have n := networkNumberAndMask_table
  simp only [privateIPBlocks_eq, List.map_cons, List.map_nil, List.cons.injEq, and_true] at n
  obtain ⟨n1, n2, n3, n4, n5, n6, n7, n8⟩ := n
  simp only [privateIPBlocks_eq, List.map_cons, List.map_nil, List.cons.injEq, and_true]
  refine ⟨?_, ?_, ?_, ?_, ?_, ?_, ?_, ?_, ?_, ?_, ?_⟩ <;>
  simp only [IsLoopback, IsLinkLocalUnicast, IsLinkLocalMulticast, Contains, h4,
    n1, n2, n3, n4, n5, n6, n7, n8] <;>
  simp [Equal, hl, h16]


theorem table_pairwise (ip : IP) (hb : isBytes ip) :
    List.Pairwise (fun x y : Bool => ¬ (x = true ∧ y = true))
      (privateIPBlocks.map fun block => Contains block ip) := by
  rcases To4_cases ip with ⟨a, b, c, d, h, hip⟩ | ⟨h, hl⟩ | ⟨h, -, h16⟩
  · have hb4 : a < 256 ∧ b < 256 := by
      rcases hip with rfl | rfl
      · have := hb a (by simp)
        have := hb b (by simp)
        omega
      · have := hb a (by simp [IPv4])
        have := hb b (by simp [IPv4])
        omega
    have hc : (privateIPBlocks.map fun block => Contains block ip) =
        privateIPBlocks.map fun block => Contains block [a, b, c, d] := by
      apply List.map_congr_left
      intro n _
      exact (predicates_To4 h).2.2.2 n
    rw [hc, (evaluation_v4 a b c d hb4.1 hb4.2).2.2.2]
    simp only [List.pairwise_cons, List.mem_cons, List.mem_singleton, List.not_mem_nil,
      forall_eq_or_imp, forall_eq, decide_eq_true_eq, false_imp_iff, implies_true, and_true,
      List.Pairwise.nil, Bool.false_eq_true, and_false, false_and, not_false_eq_true]
    omega
  · obtain ⟨a0, a1, a2, a3, a4, a5, a6, a7, a8, a9, a10, a11, a12, a13, a14, a15, rfl⟩ :=
      length_eq_sixteen hl
    rw [(evaluation_v6 _ _ _ _ _ _ _ _ _ _ _ _ _ _ _ _ hb h).2.2.2]
    simp only [List.pairwise_cons, List.mem_cons, List.mem_singleton, List.not_mem_nil,
      forall_eq_or_imp, forall_eq, decide_eq_true_eq, false_imp_iff, implies_true, and_true,
      List.Pairwise.nil, Bool.false_eq_true, and_false, false_and, not_false_eq_true,
      true_and]
    omega
  · rw [(evaluation_other h h16).2.2.2]
    simp

theorem isPrivateIPLoop_perm (ip : IP) {l1 l2 : List IPNet} (h : l1.Perm l2) :
    isPrivateIPLoop ip l1 = isPrivateIPLoop ip l2 := by
  have e : ∀ p q : Bool, (p = true ↔ q = true) → p = q := by decide
  apply e
  simp only [isPrivateIPLoop_eq_any, List.any_eq_true]
  constructor
  · rintro ⟨n, hn, hc⟩
    exact ⟨n, h.mem_iff.mp hn, hc⟩
  · rintro ⟨n, hn, hc⟩
    exact ⟨n, h.mem_iff.mpr hn, hc⟩

theorem isPrivateIP_eq_true_iff (ip : IP) :
    isPrivateIP ip = true ↔
      (IsLoopback ip = true ∨ IsLinkLocalUnicast ip = true ∨
        IsLinkLocalMulticast ip = true ∨
        ∃ block ∈ privateIPBlocks, Contains block ip = true) := by
  simp only [isPrivateIP, isPrivateIPLoop_eq_any, List.any_eq_true]
  cases IsLoopback ip <;> cases IsLinkLocalUnicast ip <;>
    cases IsLinkLocalMulticast ip <;> simp

/-! ## Claim C11: the responses disclose nothing -/

/-- C11: the response synthesized by the plain-request hook does not depend on the
host name, the resolved addresses or the cause. Any two runs that both end in Deny give
responses with the same status, headers (content type) and body, and so do any two runs
that both end in a resolution error, whatever the two errors are. -/
theorem C11_denial_responses_are_generic (r1 r2 : Resolver) (req1 req2 : Request)
    (resp1 resp2 : Response) (h1 : (DoFunc r1 req1).2 = some resp1)
    (h2 : (DoFunc r2 req2).2 = some resp2) :
    ((isPrivateHost r1 req1.URL.Hostname = (true, none) ∧
        isPrivateHost r2 req2.URL.Hostname = (true, none)) →
      resp1.StatusCode = resp2.StatusCode ∧ resp1.Header = resp2.Header ∧
      resp1.contentType = resp2.contentType ∧ resp1.Body = resp2.Body) ∧
    (((isPrivateHost r1 req1.URL.Hostname).2 ≠ none ∧
        (isPrivateHost r2 req2.URL.Hostname).2 ≠ none) →
      resp1.StatusCode = resp2.StatusCode ∧ resp1.Header = resp2.Header ∧
      resp1.contentType = resp2.contentType ∧ resp1.Body = resp2.Body) := by
  constructor
  · rintro ⟨d1, d2⟩
    rw [DoFunc_ok d1] at h1
    rw [DoFunc_ok d2] at h2
    cases h1
    cases h2
    exact ⟨rfl, rfl, rfl, rfl⟩
  · rintro ⟨e1, e2⟩
    cases he1 : (isPrivateHost r1 req1.URL.Hostname).2 with
    | none => exact absurd he1 e1
    | some x1 =>
      cases he2 : (isPrivateHost r2 req2.URL.Hostname).2 with
      | none => exact absurd he2 e2
      | some x2 =>
        rw [DoFunc_err he1] at h1
        rw [DoFunc_err he2] at h2
        cases h1
        cases h2
        exact ⟨rfl, rfl, rfl, rfl⟩

/-- C11 on two denied requests (one host resolving to 10.0.0.1, another to fe80::1 and
8.8.8.8): status, headers and body agree. -/
theorem C11_witness :
    (NewResponse ⟨"GET", ⟨"http", "intranet.example", "/"⟩⟩ ContentTypeText StatusForbidden
        "Private IP is not allowed").StatusCode =
      (NewResponse ⟨"POST", ⟨"http", "router.example:8080", "/admin"⟩⟩ ContentTypeText
        StatusForbidden "Private IP is not allowed").StatusCode ∧
    (NewResponse ⟨"GET", ⟨"http", "intranet.example", "/"⟩⟩ ContentTypeText StatusForbidden
        "Private IP is not allowed").Header =
      (NewResponse ⟨"POST", ⟨"http", "router.example:8080", "/admin"⟩⟩ ContentTypeText
        StatusForbidden "Private IP is not allowed").Header ∧
    (NewResponse ⟨"GET", ⟨"http", "intranet.example", "/"⟩⟩ ContentTypeText StatusForbidden
        "Private IP is not allowed").contentType =
      (NewResponse ⟨"POST", ⟨"http", "router.example:8080", "/admin"⟩⟩ ContentTypeText
        StatusForbidden "Private IP is not allowed").contentType ∧
    (NewResponse ⟨"GET", ⟨"http", "intranet.example", "/"⟩⟩ ContentTypeText StatusForbidden
        "Private IP is not allowed").Body =
      (NewResponse ⟨"POST", ⟨"http", "router.example:8080", "/admin"⟩⟩ ContentTypeText
        StatusForbidden "Private IP is not allowed").Body :=
  (C11_denial_responses_are_generic
    (fun _ => ([[10, 0, 0, 1]], none))
    (fun _ => ([[0xfe, 0x80, 0, 0, 0, 0, 0, 0, 0, 0, 0, 0, 0, 0, 0, 1], [8, 8, 8, 8]], none))
    ⟨"GET", ⟨"http", "intranet.example", "/"⟩⟩
    ⟨"POST", ⟨"http", "router.example:8080", "/admin"⟩⟩ _ _
    (by decide) (by decide)).1 ⟨by decide, by decide⟩

/-! ## Claim C12: the boundary of 172.16.0.0/12 -/

/-- C12: an IPv4 address 172.b.c.d, in its 4-byte or its 16-byte form, is classified
private by `isPrivateIP` exactly when 16 ≤ b ≤ 31. -/
theorem C12_boundary_of_172_16 (b c d : Nat) (hb : b < 256) :
    (isPrivateIP [172, b, c, d] = true ↔ (16 ≤ b ∧ b ≤ 31)) ∧
    (isPrivateIP (IPv4 172 b c d) = true ↔ (16 ≤ b ∧ b ≤ 31)) := by
  have t : To4 (IPv4 172 b c d) = some [172, b, c, d] := rfl
  rw [isPrivateIP_To4 t, isPrivateIP_v4 172 b c d (by decide) hb]
  constructor <;> omega

/-- C12 at the two boundary addresses: 172.31.255.255 is private, 172.32.0.0 is not. -/
theorem C12_witness :
    isPrivateIP [172, 31, 255, 255] = true ∧ isPrivateIP [172, 32, 0, 0] = false :=
  ⟨(C12_boundary_of_172_16 31 255 255 (by decide)).1.mpr (by decide),
   Bool.eq_false_iff.mpr fun h =>
     absurd ((C12_boundary_of_172_16 32 0 0 (by decide)).1.mp h) (by decide)⟩

/-! ## Claim C13: initialization -/

/-- C13: `init` does not panic. Each of the eight CIDR literals is parsed by
`net.ParseCIDR` without error, `init` run on the empty table returns normally and
leaves in `privateIPBlocks` exactly eight entries, whose network numbers and mask sizes
(`IPMask.Size`: ones, bits) are those of 127.0.0.0/8, 10.0.0.0/8, 172.16.0.0/12,
192.168.0.0/16, 169.254.0.0/16, ::1/128, fe80::/10 and fc00::/7, in this order. -/
theorem C13_init_builds_the_table :
    (∀ cidr ∈ cidrs, ∃ r, ParseCIDR cidr = Except.ok r) ∧
    init [] = Except.ok privateIPBlocks ∧
    privateIPBlocks.length = 8 ∧
    privateIPBlocks.map (fun block => (block.IP, Size block.Mask)) =
      [([127, 0, 0, 0], (8, 32)), ([10, 0, 0, 0], (8, 32)), ([172, 16, 0, 0], (12, 32)),
       ([192, 168, 0, 0], (16, 32)), ([169, 254, 0, 0], (16, 32)),
       ([0, 0, 0, 0, 0, 0, 0, 0, 0, 0, 0, 0, 0, 0, 0, 1], (128, 128)),
       ([0xfe, 0x80, 0, 0, 0, 0, 0, 0, 0, 0, 0, 0, 0, 0, 0, 0], (10, 128)),
       ([0xfc, 0, 0, 0, 0, 0, 0, 0, 0, 0, 0, 0, 0, 0, 0, 0], (7, 128))] := by
  refine ⟨?_, ?_, ?_, ?_⟩
  · intro cidr hc
    simp only [cidrs, List.mem_cons, List.mem_singleton, List.not_mem_nil, or_false] at hc
    rcases hc with rfl | rfl | rfl | rfl | rfl | rfl | rfl | rfl <;> exact ⟨_, rfl⟩
  · rfl
  · decide
  · decide

/-! ## Claim C14: `isPrivateIP` is total and pure -/

/-- C14: `isPrivateIP` is total and pure. Run with the run-time checks of Go on every
index and slice expression and with the package variable carried through the call, it
never panics: for every address value, the empty (nil) one and those of every length
included, it returns the boolean that `isPrivateIP` computes and leaves
`privateIPBlocks` as it was; and for any value of the table it returns a boolean and
leaves the table as it was. -/
theorem C14_isPrivateIP_total_and_pure (ip : IP) :
    isPrivateIPRun privateIPBlocks ip = some (isPrivateIP ip, privateIPBlocks) ∧
    ∀ blocks : List IPNet, ∃ b : Bool, isPrivateIPRun blocks ip = some (b, blocks) :=
  ⟨isPrivateIPRun_eq privateIPBlocks ip, fun blocks => ⟨_, isPrivateIPRun_eq blocks ip⟩⟩

/-- C14 on the nil address, a 3-byte value and a 17-byte value: each run returns false
and the table unchanged. -/
theorem C14_witness :
    isPrivateIPRun privateIPBlocks [] = some (false, privateIPBlocks) ∧
    isPrivateIPRun privateIPBlocks [10, 0, 0] = some (false, privateIPBlocks) ∧
    isPrivateIPRun privateIPBlocks
      [0xfe, 0x80, 0, 0, 0, 0, 0, 0, 0, 0, 0, 0, 0, 0, 0, 0, 1] =
      some (false, privateIPBlocks) :=
  ⟨(C14_isPrivateIP_total_and_pure []).1.trans
      (congrArg (fun b => some (b, privateIPBlocks)) (by decide)),
   (C14_isPrivateIP_total_and_pure [10, 0, 0]).1.trans
      (congrArg (fun b => some (b, privateIPBlocks)) (by decide)),
   (C14_isPrivateIP_total_and_pure _).1.trans
      (congrArg (fun b => some (b, privateIPBlocks)) (by decide))⟩

/-! ## Claim C15: the blocks are disjoint -/

/-- C15: the eight blocks of the table are pairwise disjoint (no address is contained
in two distinct blocks), and the result of the membership loop of `isPrivateIP` is the
same for every order of the table. -/
theorem C15_blocks_pairwise_disjoint (ip : IP) (hb : isBytes ip) :
    (∀ n1 ∈ privateIPBlocks, ∀ n2 ∈ privateIPBlocks, n1 ≠ n2 →
      ¬ (Contains n1 ip = true ∧ Contains n2 ip = true)) ∧
    (∀ blocks : List IPNet, blocks.Perm privateIPBlocks →
      isPrivateIPLoop ip blocks = isPrivateIPLoop ip privateIPBlocks) := by
  constructor
  · have hp := List.pairwise_map.mp (table_pairwise ip hb)
    have hs : Symmetric fun n1 n2 : IPNet =>
        ¬ (Contains n1 ip = true ∧ Contains n2 ip = true) := by
      intro x y hxy hyx
      exact hxy ⟨hyx.2, hyx.1⟩
    intro n1 h1 n2 h2 hne
    exact hp.forall hs h1 h2 hne
  · intro blocks hperm
    exact isPrivateIPLoop_perm ip hperm

/-- C15 at 172.16.0.1: it is in the block 172.16.0.0/12 and in no other block, and
the loop over the reversed table gives the same result. -/
theorem C15_witness :
    (∀ n ∈ privateIPBlocks, n ≠ ⟨[172, 16, 0, 0], [255, 240, 0, 0]⟩ →
      Contains n [172, 16, 0, 1] = false) ∧
    isPrivateIPLoop [172, 16, 0, 1] privateIPBlocks.reverse =
      isPrivateIPLoop [172, 16, 0, 1] privateIPBlocks :=
  have h := C15_blocks_pairwise_disjoint [172, 16, 0, 1] (by decide)
  ⟨fun n hn hne => Bool.eq_false_iff.mpr fun hc =>
      h.1 n hn ⟨[172, 16, 0, 0], [255, 240, 0, 0]⟩ (by decide) hne ⟨hc, by decide⟩,
   h.2 _ (List.reverse_perm _)⟩

/-! ## Claim C16: the two representations of an IPv4 address -/

/-- C16: `isPrivateIP` gives the 4-byte form of an IPv4 address a.b.c.d and its 16-byte
IPv4-mapped form ::ffff:a.b.c.d the same classification. -/
theorem C16_representation_independent (a b c d : Nat) :
    isPrivateIP (IPv4 a b c d) = isPrivateIP [a, b, c, d] ∧
    isPrivateIP [0, 0, 0, 0, 0, 0, 0, 0, 0, 0, 0xff, 0xff, a, b, c, d] =
      isPrivateIP [a, b, c, d] :=
  have t : To4 (IPv4 a b c d) = some [a, b, c, d] := rfl
  ⟨isPrivateIP_To4 t, isPrivateIP_To4 t⟩

/-! ## Claim C17: what the built-in predicates add to the table -/

/-- C17: for every address, `isPrivateIP` is true exactly when some block of
`privateIPBlocks` contains the address or the address is a link-local multicast address
(224.0.0.0/24, or 16 bytes with first byte 0xff and the low nibble of the second byte
equal to 2); the loopback predicate and the link-local unicast predicate accept only
addresses that some block of the table contains, and the link-local multicast predicate
is the link-local multicast range. -/
theorem C17_predicates_add_only_multicast (ip : IP) (hb : isBytes ip) :
    (isPrivateIP ip = true ↔
      ((∃ block ∈ privateIPBlocks, Contains block ip = true) ∨
       linkLocalMulticastAddr ip = true)) ∧
    (IsLoopback ip = true → ∃ block ∈ privateIPBlocks, Contains block ip = true) ∧
    (IsLinkLocalUnicast ip = true → ∃ block ∈ privateIPBlocks, Contains block ip = true) ∧
    IsLinkLocalMulticast ip = linkLocalMulticastAddr ip := by
  have hany : (∃ block ∈ privateIPBlocks, Contains block ip = true) ↔
      true ∈ privateIPBlocks.map fun block => Contains block ip := by
    simp only [List.mem_map]
  have hpriv := isPrivateIP_eq_true_iff ip
  have main : (IsLoopback ip = true → ∃ block ∈ privateIPBlocks, Contains block ip = true) ∧
      (IsLinkLocalUnicast ip = true →
        ∃ block ∈ privateIPBlocks, Contains block ip = true) ∧
      IsLinkLocalMulticast ip = linkLocalMulticastAddr ip := by
    have e : ∀ p q : Bool, (p = true ↔ q = true) → p = q := by decide
    rw [hany]
    rcases To4_cases ip with ⟨a, b, c, d, h, hip⟩ | ⟨h, hl⟩ | ⟨h, -, h16⟩
    · have hb4 : a < 256 ∧ b < 256 ∧ c < 256 ∧ d < 256 := by
        rcases hip with rfl | rfl
        · simpa only [isBytes, List.mem_cons, List.mem_singleton, forall_eq_or_imp,
            forall_eq, List.not_mem_nil, false_imp_iff, implies_true, and_true] using hb
        · obtain ⟨-, -, -, -, -, -, -, -, -, -, -, -, h12, h13, h14, h15⟩ :=
            isBytes_sixteen hb
          exact ⟨h12, h13, h14, h15⟩
      obtain ⟨ha, hb', hc, hd⟩ := hb4
      obtain ⟨p1, p2, p3, p4⟩ := predicates_To4 h
      obtain ⟨q1, q2, q3, q4⟩ := evaluation_v4 a b c d ha hb'
      have hc' : (privateIPBlocks.map fun block => Contains block ip) =
          privateIPBlocks.map fun block => Contains block [a, b, c, d] :=
        List.map_congr_left fun n _ => p4 n
      have hm : linkLocalMulticastAddr ip = linkLocalMulticastAddr [a, b, c, d] := by
        rcases hip with rfl | rfl
        · rfl
        · exact (listed_mapped a b c d ha hb' hc hd).2
      rw [p1, p2, p3, q1, q2, q3, hc', q4, hm]
      refine ⟨?_, ?_, e _ _ ?_⟩
      · intro h1
        exact List.mem_cons.mpr (Or.inl h1.symm)
      · intro h1
        exact List.mem_cons_of_mem _ (List.mem_cons_of_mem _ (List.mem_cons_of_mem _
          (List.mem_cons_of_mem _ (List.mem_cons.mpr (Or.inl h1.symm)))))
      · rw [multicast_v4 a b c d ha hb' hc hd, decide_eq_true_eq]
    · obtain ⟨a0, a1, a2, a3, a4, a5, a6, a7, a8, a9, a10, a11, a12, a13, a14, a15, rfl⟩ :=
        length_eq_sixteen hl
      obtain ⟨q1, q2, q3, q4⟩ := evaluation_v6 _ _ _ _ _ _ _ _ _ _ _ _ _ _ _ _ hb h
      obtain ⟨-, -, -, l4⟩ :=
        listed_v6 a0 a1 a2 a3 a4 a5 a6 a7 a8 a9 a10 a11 a12 a13 a14 a15 hb
      have v6 : ipv6Value [a0, a1, a2, a3, a4, a5, a6, a7, a8, a9, a10, a11, a12, a13, a14,
          a15] = some (beValue [a0, a1, a2, a3, a4, a5, a6, a7, a8, a9, a10, a11, a12, a13,
          a14, a15]) := rfl
      rw [q1, q2, q3, q4]
      refine ⟨?_, ?_, e _ _ ?_⟩
      · intro h1
        exact List.mem_cons_of_mem _ (List.mem_cons_of_mem _ (List.mem_cons_of_mem _
          (List.mem_cons_of_mem _ (List.mem_cons_of_mem _
            (List.mem_cons.mpr (Or.inl h1.symm))))))
      · intro h1
        exact List.mem_cons_of_mem _ (List.mem_cons_of_mem _ (List.mem_cons_of_mem _
          (List.mem_cons_of_mem _ (List.mem_cons_of_mem _ (List.mem_cons_of_mem _
            (List.mem_cons.mpr (Or.inl h1.symm)))))))
      · simp only [linkLocalMulticastAddr, inBlock4_none h, Bool.false_or, v6,
          Bool.and_eq_true, beq_iff_eq, l4, decide_eq_true_eq]
    · obtain ⟨q1, q2, q3, -⟩ := evaluation_other h h16
      obtain ⟨-, o2⟩ := listed_other h h16
      rw [q1, q2, q3, o2]
      simp
  obtain ⟨m1, m2, m3⟩ := main
  refine ⟨?_, m1, m2, m3⟩
  rw [hpriv, ← m3]
  constructor
  · rintro (h | h | h | h)
    · exact Or.inl (m1 h)
    · exact Or.inl (m2 h)
    · exact Or.inr h
    · exact Or.inl h
  · rintro (h | h)
    · exact Or.inr (Or.inr (Or.inr h))
    · exact Or.inr (Or.inr (Or.inl h))

/-- C17 at 224.0.0.251 and ff02::1 (accepted, in no block), and at 127.0.0.1, ::1,
169.254.1.1 and fe80::1 (accepted by a predicate and contained in a block). -/
theorem C17_witness :
    (isPrivateIP [224, 0, 0, 251] = true ∧
      ¬ ∃ block ∈ privateIPBlocks, Contains block [224, 0, 0, 251] = true) ∧
    IsLinkLocalMulticast [0xff, 0x02, 0, 0, 0, 0, 0, 0, 0, 0, 0, 0, 0, 0, 0, 1] = true ∧
    (∃ block ∈ privateIPBlocks, Contains block [127, 0, 0, 1] = true) ∧
    (∃ block ∈ privateIPBlocks,
      Contains block [0, 0, 0, 0, 0, 0, 0, 0, 0, 0, 0, 0, 0, 0, 0, 1] = true) ∧
    (∃ block ∈ privateIPBlocks, Contains block [169, 254, 1, 1] = true) ∧
    (∃ block ∈ privateIPBlocks,
      Contains block [0xfe, 0x80, 0, 0, 0, 0, 0, 0, 0, 0, 0, 0, 0, 0, 0, 1] = true) :=
  ⟨⟨(C17_predicates_add_only_multicast [224, 0, 0, 251] (by decide)).1.mpr
      (Or.inr (by decide)), by decide⟩,
   (C17_predicates_add_only_multicast
      [0xff, 0x02, 0, 0, 0, 0, 0, 0, 0, 0, 0, 0, 0, 0, 0, 1] (by decide)).2.2.2.trans
      (by decide),
   (C17_predicates_add_only_multicast [127, 0, 0, 1] (by decide)).2.1 (by decide),
   (C17_predicates_add_only_multicast
      [0, 0, 0, 0, 0, 0, 0, 0, 0, 0, 0, 0, 0, 0, 0, 1] (by decide)).2.1 (by decide),
   (C17_predicates_add_only_multicast [169, 254, 1, 1] (by decide)).2.2.1 (by decide),
   (C17_predicates_add_only_multicast
      [0xfe, 0x80, 0, 0, 0, 0, 0, 0, 0, 0, 0, 0, 0, 0, 0, 1] (by decide)).2.2.1
      (by decide)⟩

/-! ## Claims C18 to C20: empty lists, the two hooks together, unspecified addresses -/

/-- C18: when resolution succeeds with an empty address list, `isPrivateHost` returns
`(false, nil)`; the plain-request hook passes every request with that host name
through, and the CONNECT hook returns `OkConnect` for every target that splits to that
host. -/
theorem C18_empty_list_allows (lookupIP : Resolver) (host : String)
    (hempty : lookupIP host = ([], none)) :
    isPrivateHost lookupIP host = (false, none) ∧
    (∀ req : Request, req.URL.Hostname = host → DoFunc lookupIP req = (some req, none)) ∧
    (∀ hostport : String, (SplitHostPort hostport).2.2 = none →
      (SplitHostPort hostport).1 = host →
      HandleConnectFunc lookupIP hostport = (ConnectAction.OkConnect, hostport)) := by
  have h : isPrivateHost lookupIP host = (false, none) := by
    have hr : (lookupIP host).2 = none := by rw [hempty]
    rw [isPrivateHost_ok hr, hempty]
    rfl
  refine ⟨h, ?_, ?_⟩
  · intro req hreq
    rw [DoFunc_pass_iff, hreq, h]
  · intro hostport hs hhost
    rw [HandleConnectFunc_split_ok hs, hhost, h]
    simp

/-- C18 on a resolver that answers with an empty list, for the request
http://empty.example/ and the target empty.example:443. -/
theorem C18_witness :
    isPrivateHost (fun _ => ([], none)) "empty.example" = (false, none) ∧
    DoFunc (fun _ => ([], none)) ⟨"GET", ⟨"http", "empty.example", "/"⟩⟩ =
      (some ⟨"GET", ⟨"http", "empty.example", "/"⟩⟩, none) ∧
    HandleConnectFunc (fun _ => ([], none)) "empty.example:443" =
      (ConnectAction.OkConnect, "empty.example:443") :=
  have h := C18_empty_list_allows (fun _ => ([], none)) "empty.example" rfl
  ⟨h.1, h.2.1 _ (by decide), h.2.2 _ (by decide) (by decide)⟩

/-- C19: the two hooks take the same admission decision. For a host h and a port p such
that `net.SplitHostPort` splits h:p into the host h, and for one resolver, the CONNECT
hook returns `OkConnect` for h:p exactly when the plain-request hook passes through
(returns the request and no response for) a request whose URL host name is h. -/
theorem C19_hooks_agree (lookupIP : Resolver) (h p : String) (req : Request)
    (hsplit : (SplitHostPort (h ++ ":" ++ p)).2.2 = none)
    (hhost : (SplitHostPort (h ++ ":" ++ p)).1 = h) (hreq : req.URL.Hostname = h) :
    (HandleConnectFunc lookupIP (h ++ ":" ++ p)).1 = ConnectAction.OkConnect ↔
      DoFunc lookupIP req = (some req, none) := by
  rw [HandleConnectFunc_ok_iff lookupIP _ hsplit, DoFunc_pass_iff, hhost, hreq]

/-- C19 on example.com:443 and a request to http://example.com/, once with a resolver
that gives a public address (both hooks allow) and once with one that gives a private
address (both hooks refuse). -/
theorem C19_witness :
    ((HandleConnectFunc (fun _ => ([[93, 184, 216, 34]], none)) "example.com:443").1 =
        ConnectAction.OkConnect ↔
      DoFunc (fun _ => ([[93, 184, 216, 34]], none))
        ⟨"GET", ⟨"http", "example.com", "/"⟩⟩ =
        (some ⟨"GET", ⟨"http", "example.com", "/"⟩⟩, none)) ∧
    ((HandleConnectFunc (fun _ => ([[192, 168, 1, 1]], none)) "example.com:443").1 =
        ConnectAction.OkConnect ↔
      DoFunc (fun _ => ([[192, 168, 1, 1]], none))
        ⟨"GET", ⟨"http", "example.com", "/"⟩⟩ =
        (some ⟨"GET", ⟨"http", "example.com", "/"⟩⟩, none)) :=
  ⟨C19_hooks_agree _ "example.com" "443" _ (by decide) (by decide) (by decide),
   C19_hooks_agree _ "example.com" "443" _ (by decide) (by decide) (by decide)⟩

/-- C20: `isPrivateIP` is false on the unspecified addresses 0.0.0.0 and ::, so a host
that resolves only to unspecified addresses is allowed: `isPrivateHost` returns
`(false, nil)`, the plain-request hook passes the request through and the CONNECT hook
returns `OkConnect`. -/
theorem C20_unspecified_is_allowed :
    isPrivateIP [0, 0, 0, 0] = false ∧
    isPrivateIP [0, 0, 0, 0, 0, 0, 0, 0, 0, 0, 0, 0, 0, 0, 0, 0] = false ∧
    ∀ (lookupIP : Resolver) (host : String), (lookupIP host).2 = none →
      (∀ ip ∈ (lookupIP host).1, unspecified ip = true) →
      isPrivateHost lookupIP host = (false, none) ∧
      (∀ req : Request, req.URL.Hostname = host → DoFunc lookupIP req = (some req, none)) ∧
      (∀ hostport : String, (SplitHostPort hostport).2.2 = none →
        (SplitHostPort hostport).1 = host →
        HandleConnectFunc lookupIP hostport = (ConnectAction.OkConnect, hostport)) := by
  have z4 : isPrivateIP [0, 0, 0, 0] = false := by decide
  have z6 : isPrivateIP [0, 0, 0, 0, 0, 0, 0, 0, 0, 0, 0, 0, 0, 0, 0, 0] = false := by decide
  have zm : isPrivateIP (IPv4 0 0 0 0) = false := by decide
  refine ⟨z4, z6, ?_⟩
  intro lookupIP host hres hall
  have h : isPrivateHost lookupIP host = (false, none) := by
    rw [isPrivateHost_ok hres, (any_false_iff _).mpr]
    intro ip hip
    have hu := hall ip hip
    simp only [unspecified, Bool.or_eq_true, beq_iff_eq] at hu
    rcases hu with (rfl | rfl) | rfl
    · exact z4
    · exact zm
    · exact z6
  refine ⟨h, ?_, ?_⟩
  · intro req hreq
    rw [DoFunc_pass_iff, hreq, h]
  · intro hostport hs hhost
    rw [HandleConnectFunc_split_ok hs, hhost, h]
    simp

/-- C20 on a host that resolves to 0.0.0.0 and ::. -/
theorem C20_witness :
    isPrivateHost (fun _ => ([[0, 0, 0, 0],
        [0, 0, 0, 0, 0, 0, 0, 0, 0, 0, 0, 0, 0, 0, 0, 0]], none)) "zero.example" =
      (false, none) ∧
    HandleConnectFunc (fun _ => ([[0, 0, 0, 0],
        [0, 0, 0, 0, 0, 0, 0, 0, 0, 0, 0, 0, 0, 0, 0, 0]], none)) "zero.example:80" =
      (ConnectAction.OkConnect, "zero.example:80") :=
  have h := C20_unspecified_is_allowed.2.2
    (fun _ => ([[0, 0, 0, 0], [0, 0, 0, 0, 0, 0, 0, 0, 0, 0, 0, 0, 0, 0, 0, 0]], none))
    "zero.example" rfl (by decide)
  ⟨h.1, h.2.2 _ (by decide) (by decide)⟩

end Goproxy
